import Mathlib

/-!
Verification of the Gemini-Agent orchestration and self-correcting execution
engine against its natural-language specification.

The development shallowly embeds the relevant source files:

* the six files `src/agents/..._agent.py` — the `run`
  async-generator of each agent is translated into a pure function from the
  task, the (string-valued) context, and an *environment* describing the
  behaviour of the external collaborators (prompt construction / template
  rendering, the LLM call, the rule engine, the artifact store) to the list
  of chunks the generator yields, the artifact contents it hands to the
  persistence layer, and the exception (if any) escaping to the caller.
  The collaborators live in `agents/agent_base.py`, which is consumed by the
  sources through a narrow interface (spec §6); each attempt of a lifecycle
  draws its collaborator behaviour from `AttemptEnv`.
* `src/src/error_handling.py` — `agent_self_correct`, which re-enters the
  lifecycle through a fresh `FixAgent`.  The recursion is modelled with an
  explicit fuel parameter; a `none` result means the recursion exceeded the
  given depth (the source enforces no depth bound).
* `src/src/orchestrator.py` — `run_workflow`, `_execute_task`,
  `update_context`, `handle_ipc`, `_load_agents` / `reload_config`.
* `src/src/backend_server.py` — the `/ipc` endpoint handler.

Strings are manipulated through structurally recursive primitives over
`String.data` so that every definition evaluates by `decide` / `rfl`.
-/

/-! Section: string primitives (kernel-reducible). -/

/-- Test `leads s p = true` iff the char list `p` is an initial segment of `s`
(the model of the Python method `str.startswith`). -/
def leads (s p : List Char) : Bool :=
  match p, s with
  | [], _ => true
  | _ :: _, [] => false
  | b :: bs, a :: as => a == b && leads as bs

/-- Python `s.startswith(p)`. -/
def strStarts (s p : String) : Bool := leads s.data p.data

/-- Substring occurrence on char lists (the model of the Python test `p in s`). -/
def hasSub (p : List Char) : List Char → Bool
  | [] => p.isEmpty
  | c :: cs => leads (c :: cs) p || hasSub p cs

/-- Python `p in s` for strings. -/
def containsStr (s p : String) : Bool := hasSub p.data s.data

/-- Whitespace test matching the characters that the Python method `str.strip()` removes
(restricted to the ASCII whitespace that occurs in this code base). -/
def isWsChar (c : Char) : Bool := c == ' ' || c == '\t' || c == '\n' || c == '\r'

/-- Python `not s.strip()`: the string is empty or all whitespace. -/
def strIsBlank (s : String) : Bool := s.data.all isWsChar

/-- Python `"sep".join l`. -/
def joinSep (sep : String) : List String → String
  | [] => ""
  | [s] => s
  | s :: rest => s ++ sep ++ joinSep sep rest

/-- Python `"".join l`. -/
def joinAll : List String → String
  | [] => ""
  | s :: rest => s ++ joinAll rest

/-- Python falsy test for an optional string (`None` or `""`). -/
def strFalsy : Option String → Bool
  | none => true
  | some s => s.data.isEmpty

/-! Section: chunk classification (spec §6, orchestrator.py lines 109 and 148). -/

/-- A chunk is *progress* iff it literally starts with `STREAM_CHUNK:`
(`chunk.startswith("STREAM_CHUNK:")` in `orchestrator.py`); every other
chunk is *payload*. -/
def isProgressChunk (s : String) : Bool := strStarts s "STREAM_CHUNK:"

/-- The progress chunk `STREAM_CHUNK:<name>:<msg>\n` emitted by the agents. -/
def sChunk (name msg : String) : String :=
  "STREAM_CHUNK:" ++ name ++ ":" ++ msg ++ "\n"

/-- Concatenation of the payload chunks of a stream, in emission order. -/
def payloadOf (chunks : List String) : String :=
  joinAll (chunks.filter (fun c => !isProgressChunk c))

theorem leads_append (p rest : List Char) : leads (p ++ rest) p = true := by
  induction p with
  | nil => simp [leads]
  | cons a as ih => simp [leads, ih]

theorem leads_self (p : List Char) : leads p p = true := by
  have h := leads_append p []
  simpa using h

theorem strData_append (a b : String) : (a ++ b).data = a.data ++ b.data := by
  cases a; cases b; rfl

/-- Every `sChunk` is classified as progress. -/
theorem sChunk_progress (name msg : String) :
    isProgressChunk (sChunk name msg) = true := by
  have h : (sChunk name msg).data =
      "STREAM_CHUNK:".data ++ (name.data ++ ":".data ++ msg.data ++ "\n".data) := by
    simp [sChunk, strData_append, List.append_assoc]
  rw [isProgressChunk, strStarts, h]
  exact leads_append _ _

example : isProgressChunk "STREAM_CHUNK:codegen:hi\n" = true := by decide
example : isProgressChunk "result text" = false := by decide
example : containsStr "oops [ERROR] oops" "[ERROR]" = true := by decide
example : containsStr "fine" "[ERROR]" = false := by decide
example : strIsBlank "  \n\t " = true := by decide
example : strIsBlank " x " = false := by decide
example : payloadOf ["STREAM_CHUNK:a:b\n", "x", "STREAM_CHUNK:c:d\n", "y"] = "xy" := by decide

/-! Section: agent lifecycle model.

`SCtx` is the (string-valued) context dictionary an agent receives.
`AttemptEnv` packages the behaviour of the external collaborators for one
lifecycle attempt: the result of prompt preparation / template rendering
(`agent_base._construct_prompt` and the per-agent `_prepare_and_construct_prompt`),
the LLM call (`_execute_llm_workflow`, a stream that is buffered), rule
enforcement (`_enforce_agent_rules`), and the artifact store
(`_write_gdrive_file` / `_update_gdrive_file`, abstracted to the resulting
file id, `none` for a falsy result).  An `Except.error` models the
collaborator raising; `PErr.isVal` records whether the raised exception is a
`ValueError`/`KeyError` (only `TestAgent.run` distinguishes these in its
handlers).  `coordFail` models `agent_self_correct` itself raising before the
fix agent runs (e.g. `FixAgent` construction failure). -/

/-- A Python exception: message and whether it is a `ValueError`/`KeyError`. -/
structure PErr where
  msg : String
  isVal : Bool
deriving Repr, DecidableEq

/-- One rule violation as returned by `_enforce_agent_rules`. -/
structure Violation where
  rule_name : String
  message : String
deriving Repr, DecidableEq

/-- String-valued agent context (the restriction of the Python dict used by
the `context.get` reads made by the agents). -/
abbrev SCtx := List (String × String)

/-- Python `context.get(k)` for an agent context. -/
def sctxGet (ctx : SCtx) (k : String) : Option String :=
  (ctx.find? (fun p => p.1 == k)).map Prod.snd

/-- Python `context.get(k, d)`. -/
def ctxGetD (ctx : SCtx) (k d : String) : String :=
  match sctxGet ctx k with
  | none => d
  | some v => v

/-- Collaborator behaviour for one lifecycle attempt. -/
structure AttemptEnv where
  promptResult : Except PErr String
  llmResult : Except PErr (List String)
  ruleResult : Except PErr (List Violation)
  persistResult : Except PErr (Option String)
  coordFail : Option String
deriving Repr

/-- Python repr of a string-valued dict, used when `agent_self_correct`
embeds the context in the corrective task string. -/
def ctxRepr (ctx : SCtx) : String :=
  "\x7b" ++ joinSep ", " (ctx.map (fun p => "\x27" ++ p.1 ++ "\x27: \x27" ++ p.2 ++ "\x27")) ++ "\x7d"

/-- The violation summary: rule name and message pairs joined by a semicolon. -/
def violStr (vs : List Violation) : String :=
  joinSep "; " (vs.map (fun v => v.rule_name ++ ": " ++ v.message))

/-- How the `try:` body of an agent ends: normally; by the in-body self-correction
path of `TestAgent.run` (the body has already yielded its error chunk); or by
raising an exception that the `except` handler of the agent will receive. -/
inductive BodyEnd where
  | ok
  | correct (details errType guidance : String)
  | raised (e : PErr)
deriving Repr, DecidableEq

/-- Result of running the `try:` body of an agent: the chunks it yielded, the
artifact contents it handed to the persistence layer (in call order), and
how it ended. -/
structure BodyOut where
  chunks : List String
  written : List String
  outcome : BodyEnd
deriving Repr, DecidableEq

/-- Result of a whole `run`: chunks yielded to the caller, the exception (if
any) escaping the generator, and every artifact content handed to the
persistence layer.  A whole-run value of `none` (see `runFix`) means the
self-correction recursion exceeded the modelled depth. -/
structure RunOut where
  chunks : List String
  esc : Option String
  written : List String
deriving Repr, DecidableEq

instance : Inhabited RunOut := ⟨⟨[], none, []⟩⟩

/-- Python `context.get` of the operation type, with a default. -/
def opTypeOf (ctx : SCtx) (deflt : String) : String := ctxGetD ctx "operation_type" deflt

/-! Per-agent correction guidance strings (verbatim from the sources). -/

def codegenGuidance : String :=
  "The agent failed during code generation or validation. Analyze the error and context to provide a fix."

def plannerGuidance : String :=
  "The agent failed during planning or validation. Analyze the error and context to create a valid plan."

def docGuidance : String :=
  "The agent failed during documentation generation or validation. Analyze the error and context to provide a fix."

def qaGuidance : String :=
  "The agent failed during QA processing or validation. Analyze the error and context to provide a correct response."

def fixGuidance : String :=
  "The agent failed during code fixing or validation. Analyze the error and context to provide a fix."

def testLlmGuidance : String :=
  "The LLM failed to generate a valid response. Please analyze the prompt and try again."

def testValGuidance : String :=
  "A data validation or key error occurred. Check the context data and the agent\x27s logic."

def testUnhGuidance : String :=
  "An unexpected error occurred. Analyze the stack trace and context to find the root cause."

/-- The `ValueError` raised by every agent when the buffered response is
empty/whitespace or contains the literal error marker (step 4 of §4.1). -/
def emptyOrErrorMsg : String := "LLM response was empty or contained an error."

/-- Validation of a buffered response (steps 4-5 of §4.1): `full` fails if
blank or containing `[ERROR]`; then rule enforcement must report no
violation. -/
def validatedFull (e : AttemptEnv) : Option String :=
  match e.llmResult with
  | .error _ => none
  | .ok lcs =>
      let full := joinAll lcs
      if strIsBlank full || containsStr full "[ERROR]" then none
      else
        match e.ruleResult with
        | .error _ => none
        | .ok vs => if vs.isEmpty then some full else none

/-- The `try:` body of `CodeGenAgent.run` (codegen_agent.py lines 40-77).
CodeGen does not persist its artifact. -/
def codegenBody (name : String) (e : AttemptEnv) : BodyOut :=
  match e.promptResult with
  | .error pe => ⟨[], [], .raised pe⟩
  | .ok _ =>
  let c1 := sChunk name ("[" ++ name ++ "] Generating code...")
  match e.llmResult with
  | .error pe => ⟨[c1], [], .raised pe⟩
  | .ok lcs =>
  let full := joinAll lcs
  let c2 := sChunk name ("[" ++ name ++ "] Validating response...")
  if strIsBlank full || containsStr full "[ERROR]" then
    ⟨[c1, c2], [], .raised ⟨emptyOrErrorMsg, true⟩⟩
  else
  match e.ruleResult with
  | .error pe => ⟨[c1, c2], [], .raised pe⟩
  | .ok vs =>
  if vs.isEmpty then
    ⟨[c1, c2, sChunk name ("[" ++ name ++ "] Validation passed. Streaming now..."),
      full, sChunk name ("[SUCCESS] [" ++ name ++ "] Task completed successfully.")], [], .ok⟩
  else
    ⟨[c1, c2], [], .raised ⟨"Agent-specific rules violated: " ++ violStr vs, true⟩⟩

/-- The `try:` body of `PlannerAgent.run` (planner_agent.py lines 35-76).  The
plan is saved to the artifact store before the payload chunk is yielded;
a missing `parent_folder_id` raises after validation. -/
def plannerBody (name : String) (ctx : SCtx) (e : AttemptEnv) : BodyOut :=
  let c0 := sChunk name ("[" ++ name ++ "] Constructing prompt...")
  match e.promptResult with
  | .error pe => ⟨[c0], [], .raised pe⟩
  | .ok _ =>
  let c1 := sChunk name ("[" ++ name ++ "] Generating plan...")
  match e.llmResult with
  | .error pe => ⟨[c0, c1], [], .raised pe⟩
  | .ok lcs =>
  let full := joinAll lcs
  let c2 := sChunk name ("[" ++ name ++ "] Validating plan...")
  if strIsBlank full || containsStr full "[ERROR]" then
    ⟨[c0, c1, c2], [], .raised ⟨emptyOrErrorMsg, true⟩⟩
  else
  match e.ruleResult with
  | .error pe => ⟨[c0, c1, c2], [], .raised pe⟩
  | .ok vs =>
  if !vs.isEmpty then
    ⟨[c0, c1, c2], [], .raised ⟨"Agent-specific rules violated: " ++ violStr vs, true⟩⟩
  else
  let c3 := sChunk name ("[" ++ name ++ "] Validation passed. Saving plan to Google Drive...")
  if strFalsy (sctxGet ctx "parent_folder_id") then
    ⟨[c0, c1, c2, c3], [], .raised ⟨"Missing \x27parent_folder_id\x27 in context for saving output.", true⟩⟩
  else
  match e.persistResult with
  | .error pe => ⟨[c0, c1, c2, c3], [full], .raised pe⟩
  | .ok none => ⟨[c0, c1, c2, c3], [full], .raised ⟨"Failed to save the plan to Google Drive.", false⟩⟩
  | .ok (some fid) =>
    ⟨[c0, c1, c2, c3, full,
      sChunk name ("[SUCCESS] [" ++ name ++ "] Plan saved to GDrive file ID: " ++ fid)], [full], .ok⟩

/-- The `try:` body of `DocAgent.run` (doc_agent.py lines 48-85).  The
generate-new/update-existing branch of the file operation is abstracted into
`persistResult` (both produce a file id or a falsy result). -/
def docBody (name : String) (ctx : SCtx) (e : AttemptEnv) : BodyOut :=
  let op := opTypeOf ctx "generate_new"
  let c0 := sChunk name ("[" ++ name ++ "] Preparing data for operation: " ++ op ++ "...")
  match e.promptResult with
  | .error pe => ⟨[c0], [], .raised pe⟩
  | .ok _ =>
  let c1 := sChunk name ("[" ++ name ++ "] Generating documentation...")
  match e.llmResult with
  | .error pe => ⟨[c0, c1], [], .raised pe⟩
  | .ok lcs =>
  let full := joinAll lcs
  let c2 := sChunk name ("[" ++ name ++ "] Validating response...")
  if strIsBlank full || containsStr full "[ERROR]" then
    ⟨[c0, c1, c2], [], .raised ⟨emptyOrErrorMsg, true⟩⟩
  else
  match e.ruleResult with
  | .error pe => ⟨[c0, c1, c2], [], .raised pe⟩
  | .ok vs =>
  if !vs.isEmpty then
    ⟨[c0, c1, c2], [], .raised ⟨"Agent-specific rules violated: " ++ violStr vs, true⟩⟩
  else
  let c3 := sChunk name ("[" ++ name ++ "] Validation passed. Saving to Google Drive...")
  match e.persistResult with
  | .error pe => ⟨[c0, c1, c2, c3], [full], .raised pe⟩
  | .ok none => ⟨[c0, c1, c2, c3], [full],
      .raised ⟨"Failed to save the generated documentation to Google Drive.", false⟩⟩
  | .ok (some fid) =>
    ⟨[c0, c1, c2, c3, full,
      sChunk name ("[SUCCESS] [" ++ name ++ "] Task completed. Documentation saved to GDrive file ID: " ++ fid)],
     [full], .ok⟩

/-- The `try:` body of `FixAgent.run` (fix_agent.py lines 46-83); same shape as
`docBody` with the texts of the fix agent. -/
def fixBody (name : String) (ctx : SCtx) (e : AttemptEnv) : BodyOut :=
  let op := opTypeOf ctx "fix_and_create"
  let c0 := sChunk name ("[" ++ name ++ "] Preparing data for operation: " ++ op ++ "...")
  match e.promptResult with
  | .error pe => ⟨[c0], [], .raised pe⟩
  | .ok _ =>
  let c1 := sChunk name ("[" ++ name ++ "] Generating fixed code...")
  match e.llmResult with
  | .error pe => ⟨[c0, c1], [], .raised pe⟩
  | .ok lcs =>
  let full := joinAll lcs
  let c2 := sChunk name ("[" ++ name ++ "] Validating response...")
  if strIsBlank full || containsStr full "[ERROR]" then
    ⟨[c0, c1, c2], [], .raised ⟨emptyOrErrorMsg, true⟩⟩
  else
  match e.ruleResult with
  | .error pe => ⟨[c0, c1, c2], [], .raised pe⟩
  | .ok vs =>
  if !vs.isEmpty then
    ⟨[c0, c1, c2], [], .raised ⟨"Agent-specific rules violated: " ++ violStr vs, true⟩⟩
  else
  let c3 := sChunk name ("[" ++ name ++ "] Validation passed. Saving to Google Drive...")
  match e.persistResult with
  | .error pe => ⟨[c0, c1, c2, c3], [full], .raised pe⟩
  | .ok none => ⟨[c0, c1, c2, c3], [full],
      .raised ⟨"Failed to save the fixed code to Google Drive.", false⟩⟩
  | .ok (some fid) =>
    ⟨[c0, c1, c2, c3, full,
      sChunk name ("[SUCCESS] [" ++ name ++ "] Task completed. Fixed code saved to GDrive file ID: " ++ fid)],
     [full], .ok⟩

/-- The `try:` body of `QaAgent.run` (qa_agent.py lines 45-80).  For every
operation type except `answer_without_context` the validated response is
saved before being streamed; otherwise there is no file operation. -/
def qaBody (name : String) (ctx : SCtx) (e : AttemptEnv) : BodyOut :=
  let op := opTypeOf ctx "answer_with_context"
  let c0 := sChunk name ("[" ++ name ++ "] Preparing data for operation: " ++ op ++ "...")
  match e.promptResult with
  | .error pe => ⟨[c0], [], .raised pe⟩
  | .ok _ =>
  let c1 := sChunk name ("[" ++ name ++ "] Generating QA response...")
  match e.llmResult with
  | .error pe => ⟨[c0, c1], [], .raised pe⟩
  | .ok lcs =>
  let full := joinAll lcs
  let c2 := sChunk name ("[" ++ name ++ "] Validating response...")
  if strIsBlank full || containsStr full "[ERROR]" then
    ⟨[c0, c1, c2], [], .raised ⟨emptyOrErrorMsg, true⟩⟩
  else
  match e.ruleResult with
  | .error pe => ⟨[c0, c1, c2], [], .raised pe⟩
  | .ok vs =>
  if !vs.isEmpty then
    ⟨[c0, c1, c2], [], .raised ⟨"Agent-specific rules violated: " ++ violStr vs, true⟩⟩
  else
  if op != "answer_without_context" then
    let c3 := sChunk name ("[" ++ name ++ "] Validation passed. Saving to Google Drive...")
    match e.persistResult with
    | .error pe => ⟨[c0, c1, c2, c3], [full], .raised pe⟩
    | .ok none => ⟨[c0, c1, c2, c3], [full],
        .raised ⟨"Failed to save the QA output to Google Drive.", false⟩⟩
    | .ok (some fid) =>
      ⟨[c0, c1, c2, c3, full,
        sChunk name ("[SUCCESS] [" ++ name ++ "] Task completed. Output saved to GDrive file ID: " ++ fid)],
       [full], .ok⟩
  else
    ⟨[c0, c1, c2, full,
      sChunk name ("[SUCCESS] [" ++ name ++ "] Task completed successfully.")], [], .ok⟩

/-- Model of `TestAgent._format_test_results` (test_agent.py lines 169-199),
character for character. -/
def formatTestResults (ctx : SCtx) : String :=
  "# Test Execution Results\n\n## Summary\n- **Timestamp**: " ++ ctxGetD ctx "timestamp" "Unknown" ++
  "\n- **Framework**: " ++ ctxGetD ctx "framework" "pytest" ++
  "\n- **Test Suite**: " ++ ctxGetD ctx "test_suite" "Unknown" ++
  "\n\n## Test Summary\n" ++ ctxGetD ctx "test_summary" "" ++
  "\n\n## Detailed Results\n```\n" ++ ctxGetD ctx "test_results" "" ++
  "\n```\n\n## Recommendations\n" ++ ctxGetD ctx "recommendations" "No specific recommendations." ++
  "\n\n---\nGenerated by TestAgent - Gemini-Agent System\n"

/-- The `try:` body of `TestAgent.run` (test_agent.py lines 50-114).  Unlike the
other agents, TestAgent yields its *unprefixed* error messages as ordinary
chunks and triggers self-correction in-body (outcome `.correct`); on the
`generate_tests` path the artifact is written before the payload is yielded
and a successful save appends a further unprefixed `[SUCCESS]` chunk.  The
start message of this agent is sent directly to the websocket, not yielded,
so it does not appear in the stream. -/
def testBody (name : String) (ctx : SCtx) (e : AttemptEnv) : BodyOut :=
  let op := opTypeOf ctx "generate_tests"
  if op == "generate_tests" then
    match e.promptResult with
    | .error pe => ⟨[], [], .raised pe⟩
    | .ok _ =>
    match e.llmResult with
    | .error pe => ⟨[], [], .raised pe⟩
    | .ok lcs =>
    let full := joinAll lcs
    if strIsBlank full || containsStr full "[ERROR]" then
      let em := "[" ++ name ++ "] LLM workflow failed or returned empty response."
      ⟨[em], [], .correct em "llm_response_error" testLlmGuidance⟩
    else
    match e.ruleResult with
    | .error pe => ⟨[], [], .raised pe⟩
    | .ok vs =>
    if !vs.isEmpty then
      let em := "[RULE_VIOLATION] [" ++ name ++ "] Agent-specific rules violated: " ++ violStr vs
      ⟨[em], [], .correct em "rule_violation"
        ("The output violated rules: " ++ violStr vs ++ ". Please regenerate the output to comply.")⟩
    else
    match e.persistResult with
    | .error pe => ⟨[], [full], .raised pe⟩
    | .ok (some fid) =>
      ⟨[full, "\n[SUCCESS] Output saved to GDrive file ID: " ++ fid], [full], .ok⟩
    | .ok none => ⟨[full], [full], .ok⟩
  else if op == "write_test_results" then
    let formatted := formatTestResults ctx
    if strFalsy (sctxGet ctx "parent_folder_id") then
      ⟨[], [], .raised ⟨"Missing \x27parent_folder_id\x27 in context for saving output.", true⟩⟩
    else
    match e.persistResult with
    | .error pe => ⟨[], [formatted], .raised pe⟩
    | .ok (some fid) =>
      ⟨["\n[SUCCESS] Test results saved to GDrive file ID: " ++ fid], [formatted], .ok⟩
    | .ok none => ⟨["\n[ERROR] Failed to save test results to GDrive."], [formatted], .ok⟩
  else
    ⟨[], [], .raised ⟨"Unknown operation type: " ++ op, true⟩⟩

/-! Section: self-correction coordinator (`error_handling.agent_self_correct`)
and the recursive fix lifecycle.

`agent_self_correct` (error_handling.py lines 73-119) emits an opening
progress chunk, builds the corrective task string, instantiates a `FixAgent`
*named after the failing agent*, forwards the whole stream of that fix agent, and
emits a closing progress chunk; its own `try/except` turns any exception
(including one escaping the iteration of the fix agent) into a single terminal
`STREAM_CHUNK:...:[ERROR]` chunk — so the coordinator itself never raises.

Because `FixAgent.run` routes its own failures back into
`agent_self_correct`, the recursion is unbounded in the source; attempt `i`
of the model draws its collaborator behaviour from `envs i`, and `fuel`
bounds the modelled depth (`none` = the recursion exceeded `fuel`). -/

/-- The corrective task string built by `agent_self_correct`
(error_handling.py lines 88-96). -/
def mkFixTask (agentName origTask errType errDetails ctxR guidance : String) : String :=
  "The \x27" ++ agentName ++ "\x27 agent failed on the task: \x27" ++ origTask ++ "\x27.\n" ++
  "Error Type: " ++ errType ++ "\n" ++
  "Error Details: " ++ errDetails ++ "\n" ++
  "Original Context: " ++ ctxR ++ "\n" ++
  (if guidance == "" then "" else "Correction Guidance: " ++ guidance ++ "\n") ++
  "Please analyze the error and provide a corrected response or solution."

/-- Opening progress chunk of `agent_self_correct`. -/
def scOpenChunk (agentName errType errDetails : String) : String :=
  sChunk agentName ("[INFO] Initiating self-correction for " ++ agentName ++
    " due to " ++ errType ++ ". Error: " ++ errDetails)

/-- Closing progress chunk of `agent_self_correct`. -/
def scCloseChunk (agentName : String) : String :=
  sChunk agentName ("[INFO] Self-correction attempt for " ++ agentName ++ " completed.")

/-- Terminal chunk of the own `except` handler of `agent_self_correct`. -/
def scCritChunk (agentName msg : String) : String :=
  sChunk agentName ("[ERROR] A critical error occurred during the self-correction process: " ++ msg)

/-- Assembles the `agent_self_correct` stream around the run result of the
fix agent.  `cf` is the own failure of the coordinator (raised before the
fix agent streams, e.g. at `FixAgent` construction); any exception escaping
the stream of the fix agent is caught by the coordinator and turned into the
terminal error chunk.  The coordinator itself never raises (`esc = none`). -/
def scWrap (agentName errType errDetails : String) (cf : Option String)
    (fixRes : Option RunOut) : Option RunOut :=
  let opening := scOpenChunk agentName errType errDetails
  match cf with
  | some ce => some ⟨[opening, scCritChunk agentName ce], none, []⟩
  | none =>
    match fixRes with
    | none => none
    | some r =>
      match r.esc with
      | none => some ⟨opening :: r.chunks ++ [scCloseChunk agentName], none, r.written⟩
      | some e => some ⟨opening :: r.chunks ++ [scCritChunk agentName e], none, r.written⟩

/-- Model of `FixAgent.run` (fix_agent.py lines 37-97), with its `except` handler
inlining `agent_self_correct` on the next attempt index.  The recursion has
no bound in the source; `fuel` bounds the modelled depth. -/
def runFix (name task : String) (ctx : SCtx) (envs : Nat → AttemptEnv) :
    Nat → Nat → Option RunOut
  | _, 0 => none
  | i, fuel + 1 =>
    let startC := sChunk name ("[" ++ name ++ "] Starting code fixing task: " ++ task)
    let b := fixBody name ctx (envs i)
    match b.outcome with
    | .ok => some ⟨startC :: b.chunks, none, b.written⟩
    | .correct d t g =>
      -- not produced by `fixBody`; kept for totality with the same
      -- stream-then-stop shape as the in-body correction path
      match scWrap name t d (envs (i + 1)).coordFail
          (runFix name (mkFixTask name task t d (ctxRepr ctx) g) ctx envs (i + 1) fuel) with
      | none => none
      | some sc => some ⟨startC :: b.chunks ++ sc.chunks, sc.esc, b.written ++ sc.written⟩
    | .raised pe =>
      let eh := sChunk name ("[" ++ name ++ "] Self-correction triggered due to error: " ++ pe.msg)
      match scWrap name "agent_execution_error" pe.msg (envs (i + 1)).coordFail
          (runFix name (mkFixTask name task "agent_execution_error" pe.msg (ctxRepr ctx) fixGuidance)
            ctx envs (i + 1) fuel) with
      | none => none
      | some sc => some ⟨startC :: b.chunks ++ eh :: sc.chunks, sc.esc, b.written ++ sc.written⟩

/-- Model of `agent_self_correct(agent, original_task, ctx, details, type, guidance)`
as invoked from a non-fix agent: the fix attempt is attempt 1. -/
def agentSelfCorrect (agentName origTask : String) (ctx : SCtx)
    (errDetails errType guidance : String) (envs : Nat → AttemptEnv) (fuel : Nat) :
    Option RunOut :=
  scWrap agentName errType errDetails (envs 1).coordFail
    (runFix agentName (mkFixTask agentName origTask errType errDetails (ctxRepr ctx) guidance)
      ctx envs 1 fuel)

/-- The shared `run` shape of the five buffer-validate-emit agents
(codegen/planner/doc/qa use exactly this `except Exception` handler, which
yields a `STREAM_CHUNK:`-wrapped error and streams `agent_self_correct` with
error type `agent_execution_error` and the per-agent guidance text). -/
def assembleRun (name task : String) (ctx : SCtx) (envs : Nat → AttemptEnv) (fuel : Nat)
    (startC guidance : String) (b : BodyOut) : Option RunOut :=
  match b.outcome with
  | .ok => some ⟨startC :: b.chunks, none, b.written⟩
  | .correct d t g =>
    match agentSelfCorrect name task ctx d t g envs fuel with
    | none => none
    | some sc => some ⟨startC :: b.chunks ++ sc.chunks, sc.esc, b.written ++ sc.written⟩
  | .raised pe =>
    let eh := sChunk name ("[" ++ name ++ "] Self-correction triggered due to error: " ++ pe.msg)
    match agentSelfCorrect name task ctx pe.msg "agent_execution_error" guidance envs fuel with
    | none => none
    | some sc => some ⟨startC :: b.chunks ++ eh :: sc.chunks, sc.esc, b.written ++ sc.written⟩

/-- Model of `CodeGenAgent.run` (codegen_agent.py lines 29-93). -/
def runCodegen (name task : String) (ctx : SCtx) (envs : Nat → AttemptEnv) (fuel : Nat) :
    Option RunOut :=
  assembleRun name task ctx envs fuel
    (sChunk name ("[" ++ name ++ "] Starting code generation task: " ++ task))
    codegenGuidance (codegenBody name (envs 0))

/-- Model of `PlannerAgent.run` (planner_agent.py lines 26-90). -/
def runPlanner (name task : String) (ctx : SCtx) (envs : Nat → AttemptEnv) (fuel : Nat) :
    Option RunOut :=
  assembleRun name task ctx envs fuel
    (sChunk name ("[" ++ name ++ "] Starting planning task: " ++ task))
    plannerGuidance (plannerBody name ctx (envs 0))

/-- Model of `DocAgent.run` (doc_agent.py lines 37-99). -/
def runDoc (name task : String) (ctx : SCtx) (envs : Nat → AttemptEnv) (fuel : Nat) :
    Option RunOut :=
  assembleRun name task ctx envs fuel
    (sChunk name ("[" ++ name ++ "] Starting documentation task: " ++ task))
    docGuidance (docBody name ctx (envs 0))

/-- Model of `QaAgent.run` (qa_agent.py lines 36-94). -/
def runQa (name task : String) (ctx : SCtx) (envs : Nat → AttemptEnv) (fuel : Nat) :
    Option RunOut :=
  assembleRun name task ctx envs fuel
    (sChunk name ("[" ++ name ++ "] Starting QA task: " ++ task))
    qaGuidance (qaBody name ctx (envs 0))

/-- Model of `TestAgent.run` (test_agent.py lines 37-141): no start chunk is yielded
(it goes straight to the websocket); the in-body `.correct` outcome streams
`agent_self_correct` and returns; the two `except` handlers yield an
*unprefixed* error message and differ only in texts, error type and
guidance, chosen by whether the exception is a `ValueError`/`KeyError`. -/
def runTest (name task : String) (ctx : SCtx) (envs : Nat → AttemptEnv) (fuel : Nat) :
    Option RunOut :=
  let b := testBody name ctx (envs 0)
  match b.outcome with
  | .ok => some ⟨b.chunks, none, b.written⟩
  | .correct d t g =>
    match agentSelfCorrect name task ctx d t g envs fuel with
    | none => none
    | some sc => some ⟨b.chunks ++ sc.chunks, sc.esc, b.written ++ sc.written⟩
  | .raised pe =>
    if pe.isVal then
      let em := "[ERROR] [" ++ name ++ "] Validation error: " ++ pe.msg
      match agentSelfCorrect name task ctx pe.msg "validation_error" testValGuidance envs fuel with
      | none => none
      | some sc => some ⟨b.chunks ++ em :: sc.chunks, sc.esc, b.written ++ sc.written⟩
    else
      let em := "[ERROR] [" ++ name ++ "] Unhandled exception in run: " ++ pe.msg
      match agentSelfCorrect name task ctx pe.msg "unhandled_exception" testUnhGuidance envs fuel with
      | none => none
      | some sc => some ⟨b.chunks ++ em :: sc.chunks, sc.esc, b.written ++ sc.written⟩

/-- The six agent specializations. -/
inductive AgentKind where
  | codegen | doc | fix | planner | qa | test
deriving Repr, DecidableEq

/-- Operation `Run(task, context)` of each agent type (spec §4.1). -/
def runAgent : AgentKind → String → String → SCtx → (Nat → AttemptEnv) → Nat → Option RunOut
  | .codegen => runCodegen
  | .doc => runDoc
  | .fix => fun name task ctx envs fuel => runFix name task ctx envs 0 fuel
  | .planner => runPlanner
  | .qa => runQa
  | .test => runTest

/-- The `try:` body a given agent kind executes on attempt 0. -/
def bodyOf : AgentKind → String → SCtx → AttemptEnv → BodyOut
  | .codegen => fun name _ e => codegenBody name e
  | .doc => docBody
  | .fix => fixBody
  | .planner => plannerBody
  | .qa => qaBody
  | .test => testBody

/-! Section: Orchestrator (`src/src/orchestrator.py`).

For the orchestrator-level claims the agents are abstracted behind
`AgentI.beh`: a function from the task and the shared context to the chunks
the stream of the agent yields and the exception (if any) it raises mid-stream —
exactly the interface `_execute_task` and `handle_ipc` consume. -/

/-- One workflow entry (a JSON object with name, agent and task keys); absent keys are
`none`. -/
structure TaskDef where
  name : Option String
  agent : Option String
  task : Option String
deriving DecidableEq

/-- A value of the shared context dict of the Orchestrator. -/
inductive CtxVal where
  | vStr (s : String)
  | vWorkflow (w : List TaskDef)
  | vDict
deriving DecidableEq

/-- The Orchestrator field `self.context`. -/
abbrev OCtx := List (String × CtxVal)

/-- Lookup `self.context.get(k)` / `self.context[k]`. -/
def octxGet (ctx : OCtx) (k : String) : Option CtxVal :=
  (ctx.find? (fun p => p.1 == k)).map Prod.snd

/-- Python `dict.update` with a single key: replace in place, else append. -/
def octxUpdate (ctx : OCtx) (k : String) (v : CtxVal) : OCtx :=
  match ctx with
  | [] => [(k, v)]
  | (k', v') :: rest =>
    if k' == k then (k', v) :: rest else (k', v') :: octxUpdate rest k v

/-- Model of `Orchestrator.update_context` (orchestrator.py lines 128-131) restricted
to the single-key dicts the workflow loop passes it. -/
def updateContext (ctx : OCtx) (k : String) (v : CtxVal) : OCtx := octxUpdate ctx k v

/-- A live agent instance as the orchestrator sees it: its `name` and
the behaviour of its `run` stream. -/
structure AgentI where
  name : String
  beh : String → OCtx → List String × Option String

/-- Registry `self.agents`: agent-type identifier to live instance. -/
abbrev Registry := List (String × AgentI)

/-- Model of `Orchestrator._get_agent` (lookup in `self.agents`). -/
def regGet (reg : Registry) (agentType : String) : Option AgentI :=
  (reg.find? (fun p => p.1 == agentType)).map Prod.snd

/-- Model of `Orchestrator._execute_task` (orchestrator.py lines 116-126): forward
the chunks of the agent; an exception raised by the stream is caught and turned
into a final `[ERROR]` chunk. -/
def execTask (ag : AgentI) (task : String) (ctx : OCtx) : List String :=
  let r := ag.beh task ctx
  match r.2 with
  | none => r.1
  | some m => r.1 ++ ["[ERROR] Unhandled exception in agent \x27" ++ ag.name ++ "\x27: " ++ m]

/-- Python `task_def.get` of the step name, defaulting to Task i+1 (orchestrator.py line 88). -/
def taskName (i : Nat) (td : TaskDef) : String :=
  match td.name with
  | none => "Task " ++ Nat.repr (i + 1)
  | some s => s

/-- The error message with which step `i` is skipped, or `none` when the
agent of the step resolves (orchestrator.py lines 92-102). -/
def badStepMsg (reg : Registry) (i : Nat) (td : TaskDef) : Option String :=
  if strFalsy td.agent then
    some ("[ERROR] Skipping invalid task \x27" ++ taskName i td ++ "\x27: missing agent type.")
  else if strFalsy td.task then
    some ("[ERROR] Skipping invalid task \x27" ++ taskName i td ++ "\x27: missing task description.")
  else
    match regGet reg (td.agent.getD "") with
    | none => some ("[ERROR] Agent \x27" ++ td.agent.getD "" ++ "\x27 not found for task \x27" ++
        taskName i td ++ "\x27.")
    | some _ => none

/-- The step loop of `Orchestrator.run_workflow` (orchestrator.py lines
87-112): returns the messages sent to the websocket and the final context. -/
def runSteps (reg : Registry) : Nat → List TaskDef → OCtx → List String × OCtx
  | _, [], ctx => ([], ctx)
  | i, td :: rest, ctx =>
    match badStepMsg reg i td with
    | some m =>
      let r := runSteps reg (i + 1) rest ctx
      (m :: r.1, r.2)
    | none =>
      let a := td.agent.getD ""
      let ag := (regGet reg a).getD ⟨"", fun _ _ => ([], none)⟩
      let info := "[INFO] Executing task \x27" ++ taskName i td ++ "\x27 with agent \x27" ++ a ++ "\x27."
      let cs := execTask ag (td.task.getD "") ctx
      let ctx2 := updateContext ctx (a ++ "_output") (CtxVal.vStr (payloadOf cs))
      let r := runSteps reg (i + 1) rest ctx2
      (info :: cs ++ r.1, r.2)

/-- The fresh context `run_workflow` installs at its start
(orchestrator.py line 85). -/
def wfInitCtx (wf : List TaskDef) : OCtx :=
  [("initial_workflow", CtxVal.vWorkflow wf), ("outputs", CtxVal.vDict)]

/-- Model of `Orchestrator.run_workflow` (orchestrator.py lines 83-114). -/
def runWorkflow (reg : Registry) (wf : List TaskDef) : List String × OCtx :=
  let r := runSteps reg 0 wf (wfInitCtx wf)
  ("[INFO] Starting workflow execution..." ::
    (r.1 ++ ["[INFO] Workflow execution complete."]), r.2)

/-- Model of `Orchestrator.handle_ipc` (orchestrator.py lines 133-153): buffer the
stream, discard `STREAM_CHUNK:`-prefixed chunks, join the rest; a missing
agent or a raising stream produces an `[ERROR]` string as the *normal
return value*. -/
def handleIpc (reg : Registry) (ctx : OCtx) (agentType task : String) : String :=
  match regGet reg agentType with
  | none => "[ERROR] Agent \x27" ++ agentType ++ "\x27 not found for IPC task."
  | some ag =>
    let r := ag.beh task ctx
    match r.2 with
    | none => payloadOf r.1
    | some m => "[ERROR] Unhandled exception in IPC for agent \x27" ++ ag.name ++ "\x27: " ++ m

/-! Section: the `/ipc` endpoint (`src/src/backend_server.py` lines 138-149). -/

/-- The parsed JSON body of a `/ipc` request: `data.get` defaults the agent
to codegen and the task to the empty string. -/
structure IpcRequest where
  agent : Option String
  task : Option String

/-- The JSON response of the endpoint: a result value or an error value. -/
inductive IpcResponse where
  | result (s : String)
  | error (s : String)
deriving Repr, DecidableEq

/-- Model of `ipc_handler`: defaults the fields, calls `handle_ipc`, and wraps the
returned string as a result response; its `except` (which would produce an
error response) only fires if `handle_ipc` raises — and `handleIpc` is a
total function, so the model always answers with `result`. -/
def ipcHandler (reg : Registry) (ctx : OCtx) (req : IpcRequest) : IpcResponse :=
  IpcResponse.result (handleIpc reg ctx (req.agent.getD "codegen") (req.task.getD ""))

/-! Section: shared-context concurrency model (claim about run isolation).

`run_workflow` and `handle_ipc` both operate on the *instance-wide*
`self.context` (orchestrator.py lines 40, 85, 112, 143).  Between the
numbered events below the coroutines suspend (`await
websocket_manager.send_message_to_client`, `async for chunk in run_result`),
so on one event loop another call on the same Orchestrator may run; a
schedule is a list of such atomic events.

* `wfInit wf` — `run_workflow` line 85 replaces `self.context` by the fresh initial dict;
  line 86 then awaits the start notification.
* `wfUpdate k v` — `run_workflow` line 112 calls `self.update_context` with the
  output key of the agent type after the stream of the step (whose chunks were
  awaited) completes.
* `wfComplete` — `run_workflow` line 114: awaits the completion notification.
* `ipcRead` — `handle_ipc` line 143: `agent.run(task, self.context)` hands the
  *current shared* context to the agent of the concurrent IPC call; the model
  records what that agent observes. -/

inductive OrchEvent where
  | wfInit (wf : List TaskDef)
  | wfUpdate (k : String) (v : CtxVal)
  | wfComplete
  | ipcRead

/-- The shared Orchestrator state visible to interleaved runs. -/
structure ConcState where
  octx : OCtx
  sink : List String
  ipcObserved : Option OCtx

/-- One atomic event of an interleaved execution. -/
def concStep (s : ConcState) : OrchEvent → ConcState
  | .wfInit wf =>
      { s with octx := wfInitCtx wf, sink := s.sink ++ ["[INFO] Starting workflow execution..."] }
  | .wfUpdate k v => { s with octx := updateContext s.octx k v }
  | .wfComplete => { s with sink := s.sink ++ ["[INFO] Workflow execution complete."] }
  | .ipcRead => { s with ipcObserved := some s.octx }

/-- Run a schedule of interleaved events. -/
def concRun (evs : List OrchEvent) (s : ConcState) : ConcState := evs.foldl concStep s

/-! Section: agent registry reload (`_load_agents` / `reload_config`).

`reload_config` (orchestrator.py lines 44-47) calls `_load_agents`
(lines 49-81), which — when the configuration is non-empty — executes
`self.agents.clear()` and repopulates the *same* dict object; the `self.agents`
reference is never replaced.  The model makes the aliasing explicit with a
tiny heap of reference cells: a run holding the registry reference before a
reload reads the rebuilt contents through the same reference afterwards. -/

/-- Registry contents: agent name to the class it was constructed from. -/
abbrev AgentMap := List (String × String)

/-- The `agent_class_map` dict (orchestrator.py lines 56-63). -/
def agentClassMap : AgentMap :=
  [("codegen", "CodeGenAgent"), ("doc", "DocAgent"), ("fix", "FixAgent"),
   ("planner", "PlannerAgent"), ("qa", "QaAgent"), ("test", "TestAgent")]

/-- Lookup in an `AgentMap`. -/
def amGet (m : AgentMap) (k : String) : Option String :=
  (m.find? (fun p => p.1 == k)).map Prod.snd

/-- The entries `_load_agents` inserts for the given configuration keys (in
configuration order): names with no class in `agent_class_map` are skipped
with a warning; constructions are assumed to succeed (their `except` merely
skips the entry). -/
def buildEntries (configs : List String) : AgentMap :=
  configs.filterMap (fun n => (amGet agentClassMap n).map (fun cls => (n, cls)))

/-- Orchestrator state for the reload model: a heap of registry cells and
the reference `self.agents` holds.  In-flight runs capture `agentsRef`. -/
structure OrchRegState where
  heap : List (Nat × AgentMap)
  agentsRef : Nat

/-- Read a heap cell. -/
def heapGet (h : List (Nat × AgentMap)) (r : Nat) : AgentMap :=
  ((h.find? (fun p => p.1 == r)).map Prod.snd).getD []

/-- Write a heap cell in place. -/
def heapSet (h : List (Nat × AgentMap)) (r : Nat) (m : AgentMap) : List (Nat × AgentMap) :=
  match h with
  | [] => [(r, m)]
  | (r', m') :: rest => if r' == r then (r', m) :: rest else (r', m') :: heapSet rest r m

/-- Model of `Orchestrator._load_agents` (orchestrator.py lines 49-81): an empty
configuration logs an error and returns (the registry is left untouched);
otherwise `self.agents.clear()` plus repopulation — i.e. the cell named by
`agentsRef` is overwritten, and `agentsRef` itself is unchanged. -/
def loadAgents (configs : List String) (s : OrchRegState) : OrchRegState :=
  if configs.isEmpty then s
  else { s with heap := heapSet s.heap s.agentsRef (buildEntries configs) }

/-- Model of `Orchestrator.reload_config` (orchestrator.py lines 44-47). -/
def reloadConfig (configs : List String) (s : OrchRegState) : OrchRegState :=
  loadAgents configs s

/-! Section: theorems. -/

theorem heapGet_heapSet (h : List (Nat × AgentMap)) (r : Nat) (m : AgentMap) :
    heapGet (heapSet h r m) r = m := by
  induction h with
  | nil => simp [heapGet, heapSet]
  | cons p rest ih =>
    obtain ⟨r', m'⟩ := p
    by_cases hr : r' == r
    · simp [heapGet, heapSet, hr]
    · simp only [heapSet, hr, if_neg, Bool.false_eq_true, not_false_eq_true, ite_false]
      simp [heapGet] at ih ⊢
      simp [List.find?, hr]
      exact ih

/-- Claim C10: `handle_ipc` with an unknown agent type returns the literal
not-found error text as its *normal* result, and the `/ipc` endpoint wraps
it in a result response — never in an error response. -/
theorem C10_ipc_missing_agent_result_not_error
    (reg : Registry) (ctx : OCtx) (aty task : String)
    (h : regGet reg aty = none) :
    handleIpc reg ctx aty task = "[ERROR] Agent \x27" ++ aty ++ "\x27 not found for IPC task." ∧
    ipcHandler reg ctx ⟨some aty, some task⟩ =
      IpcResponse.result ("[ERROR] Agent \x27" ++ aty ++ "\x27 not found for IPC task.") ∧
    ∀ s, ipcHandler reg ctx ⟨some aty, some task⟩ ≠ IpcResponse.error s := by
  have h1 : handleIpc reg ctx aty task =
      "[ERROR] Agent \x27" ++ aty ++ "\x27 not found for IPC task." := by
    simp [handleIpc, h]
  refine ⟨h1, ?_, ?_⟩
  · simp [ipcHandler, Option.getD, h1]
  · intro s hs
    simp [ipcHandler] at hs

theorem C10_witness :
    regGet [] "ghost" = none ∧
    handleIpc [] [] "ghost" "do it" = "[ERROR] Agent \x27ghost\x27 not found for IPC task." ∧
    ipcHandler [] [] ⟨some "ghost", some "do it"⟩ =
      IpcResponse.result ("[ERROR] Agent \x27ghost\x27 not found for IPC task.") :=
  ⟨rfl,
   (C10_ipc_missing_agent_result_not_error [] [] "ghost" "do it" rfl).1,
   (C10_ipc_missing_agent_result_not_error [] [] "ghost" "do it" rfl).2.1⟩

/-- Claim C9: `handle_ipc` returns exactly the in-order concatenation of the
payload chunks of the stream of the agent (every `STREAM_CHUNK:`-prefixed chunk
discarded); when the stream raises, the error is returned as an `[ERROR]`
string; and the `/ipc` endpoint always answers with a result-carrying
value — never a transport-level failure. -/
theorem C9_ipc_payload_concat_errors_as_data
    (reg : Registry) (ctx : OCtx) (aty task : String) :
    (∀ ag cs, regGet reg aty = some ag → ag.beh task ctx = (cs, none) →
      handleIpc reg ctx aty task = payloadOf cs) ∧
    (∀ ag cs m, regGet reg aty = some ag → ag.beh task ctx = (cs, some m) →
      handleIpc reg ctx aty task =
        "[ERROR] Unhandled exception in IPC for agent \x27" ++ ag.name ++ "\x27: " ++ m) ∧
    (∀ req : IpcRequest, ∃ s, ipcHandler reg ctx req = IpcResponse.result s) := by
  refine ⟨?_, ?_, fun req => ⟨_, rfl⟩⟩
  · intro ag cs hreg hbeh
    simp [handleIpc, hreg, hbeh]
  · intro ag cs m hreg hbeh
    simp [handleIpc, hreg, hbeh]

def c9EchoAgent : AgentI :=
  ⟨"codegen", fun task _ => (["STREAM_CHUNK:codegen:working\n", task, "STREAM_CHUNK:codegen:done\n", "!"], none)⟩

theorem C9_witness :
    regGet [("codegen", c9EchoAgent)] "codegen" = some c9EchoAgent ∧
    handleIpc [("codegen", c9EchoAgent)] [] "codegen" "OUT" =
      payloadOf ["STREAM_CHUNK:codegen:working\n", "OUT", "STREAM_CHUNK:codegen:done\n", "!"] :=
  ⟨rfl,
   (C9_ipc_payload_concat_errors_as_data [("codegen", c9EchoAgent)] [] "codegen" "OUT").1
     c9EchoAgent _ rfl rfl⟩

/-- Claim C8 counterexample: `reload_config` does *not* replace the registry
reference — after reloading with a configuration containing only `doc`, the
same reference (cell 0) that an in-flight run captured no longer resolves
`codegen`, although it did before.  The registry dict is mutated in place
(`self.agents.clear()` and repopulation), so an in-flight run holding the
old registry is affected. -/
def c8Init : OrchRegState := ⟨[(0, buildEntries ["codegen"])], 0⟩

theorem C8_counterexample_in_place_mutation :
    (reloadConfig ["doc"] c8Init).agentsRef = c8Init.agentsRef ∧
    amGet (heapGet c8Init.heap 0) "codegen" = some "CodeGenAgent" ∧
    amGet (heapGet (reloadConfig ["doc"] c8Init).heap 0) "codegen" = none ∧
    amGet (heapGet (reloadConfig ["doc"] c8Init).heap 0) "doc" = some "DocAgent" := by
  refine ⟨rfl, rfl, rfl, rfl⟩

/-- Claim C8, amended: `ReloadAgents` with a non-empty configuration
rebuilds the registry *in place*: the `self.agents` reference is unchanged
and the cell it names now holds exactly the freshly built entries, so any
in-flight run resolving agents through that reference sees the new registry
(it is *not* isolated from a concurrent reload). -/
theorem C8_amended_reload_mutates_in_place
    (s : OrchRegState) (configs : List String) (h : configs ≠ []) :
    (reloadConfig configs s).agentsRef = s.agentsRef ∧
    heapGet (reloadConfig configs s).heap s.agentsRef = buildEntries configs := by
  have hne : configs.isEmpty = false := by
    cases configs with
    | nil => exact absurd rfl h
    | cons a l => rfl
  constructor
  · simp [reloadConfig, loadAgents, hne]
  · simp [reloadConfig, loadAgents, hne, heapGet_heapSet]

theorem C8_witness :
    (reloadConfig ["doc"] c8Init).agentsRef = c8Init.agentsRef ∧
    heapGet (reloadConfig ["doc"] c8Init).heap c8Init.agentsRef = buildEntries ["doc"] :=
  C8_amended_reload_mutates_in_place c8Init ["doc"] (by simp)

/-- The one-step workflow of the run-isolation scenario. -/
def c6Workflow : List TaskDef := [⟨some "Step A", some "codegen", some "make A"⟩]

/-- A schedule in which a `handle_ipc` call reads the shared `self.context`
after the concurrently running `run_workflow` has merged its step output and
before that workflow has completed. -/
def c6Sched : List OrchEvent :=
  [.wfInit c6Workflow, .wfUpdate "codegen_output" (.vStr "A-payload"), .ipcRead, .wfComplete]

/-- Claim C6 (violated by the source, which the spec itself flags):
`run_workflow` and `handle_ipc` share the single instance-wide
`self.context`, so under this interleaving the agent serving the concurrent
IPC call observes the `codegen_output` write of the workflow — while it is still
in flight (its completion notification is sent only afterwards).  Context
mutation is therefore not scoped to its own logical run. -/
theorem C6_shared_context_observed_across_runs :
    (concRun c6Sched ⟨[], [], none⟩).ipcObserved =
      some (updateContext (wfInitCtx c6Workflow) "codegen_output" (CtxVal.vStr "A-payload")) ∧
    octxGet (updateContext (wfInitCtx c6Workflow) "codegen_output" (CtxVal.vStr "A-payload"))
      "codegen_output" = some (CtxVal.vStr "A-payload") ∧
    (concRun c6Sched ⟨[], [], none⟩).sink =
      ["[INFO] Starting workflow execution...", "[INFO] Workflow execution complete."] :=
  ⟨rfl, rfl, rfl⟩

/-- A collaborator environment whose LLM call fails on every attempt —
including every corrective attempt of the Fix agent. -/
def envAllFail : Nat → AttemptEnv :=
  fun _ => ⟨.ok "prompt", .error ⟨"LLM call failed or timed out", false⟩, .ok [], .ok none, none⟩

/-- A stub attempt in which every collaborator succeeds. -/
def envOkStub : AttemptEnv :=
  ⟨.ok "prompt", .ok ["corrected output"], .ok [], .ok (some "file-1"), none⟩

/-- A stub attempt whose LLM call fails. -/
def envFailStub : AttemptEnv :=
  ⟨.ok "prompt", .error ⟨"LLM call failed or timed out", false⟩, .ok [], .ok none, none⟩

/-- Attempts `0..k-1` fail, attempt `k` succeeds: the self-correction chain
must re-enter the fix lifecycle `k` times before recovering. -/
def envFailN (k : Nat) : Nat → AttemptEnv := fun i => if i < k then envFailStub else envOkStub

theorem runFix_envAllFail_none (fuel : Nat) :
    ∀ i name task ctx, runFix name task ctx envAllFail i fuel = none := by
  induction fuel with
  | zero => intro i name task ctx; rfl
  | succ f ih =>
    intro i name task ctx
    simp only [runFix, fixBody, envAllFail, scWrap, ih (i + 1)]

theorem envFailN_coordFail (k i : Nat) : (envFailN k i).coordFail = none := by
  unfold envFailN
  split <;> rfl

theorem runFix_envFailN_none (k : Nat) :
    ∀ d i name task ctx, i + d = k → runFix name task ctx (envFailN k) i d = none := by
  intro d
  induction d with
  | zero => intro i name task ctx _; rfl
  | succ f ih =>
    intro i name task ctx hik
    have hi : i < k := by omega
    have henv : envFailN k i = envFailStub := by simp [envFailN, hi]
    have hcf : (envFailN k (i + 1)).coordFail = none := envFailN_coordFail k (i + 1)
    have hrec := ih (i + 1) name
      (mkFixTask name task "agent_execution_error" "LLM call failed or timed out" (ctxRepr ctx)
        fixGuidance) ctx (by omega)
    simp only [fixGuidance] at hrec
    simp only [runFix, henv, fixBody, envFailStub, scWrap, hcf, fixGuidance, hrec]

theorem runFix_envFailN_some (k : Nat) :
    ∀ d i name task ctx, i + d = k → (runFix name task ctx (envFailN k) i (d + 1)).isSome = true := by
  intro d
  induction d with
  | zero =>
    intro i name task ctx hik
    have hi : ¬ i < k := by omega
    have henv : envFailN k i = envOkStub := by simp [envFailN, hi]
    simp only [runFix, henv]
    rfl
  | succ f ih =>
    intro i name task ctx hik
    have hi : i < k := by omega
    have henv : envFailN k i = envFailStub := by simp [envFailN, hi]
    have hcf : (envFailN k (i + 1)).coordFail = none := envFailN_coordFail k (i + 1)
    obtain ⟨r, hr⟩ := Option.isSome_iff_exists.mp (ih (i + 1) name
      (mkFixTask name task "agent_execution_error" "LLM call failed or timed out" (ctxRepr ctx)
        fixGuidance) ctx (by omega))
    simp only [fixGuidance] at hr
    generalize hg : f + 1 = g at hr ⊢
    simp only [runFix, henv, fixBody, envFailStub, scWrap, hcf, fixGuidance, hr]
    cases hresc : r.esc <;> simp [hresc]

/-- Claim C7: the self-correction recursion through `FixAgent.run` and
`agent_self_correct` has no depth bound.  Under an environment in which
every corrective attempt fails, the recursion exceeds *every* modelled
depth (termination is not guaranteed); and for every `k` there is an
environment (`envFailN k`) on which the chain needs exactly `k` nested
re-entries: depth `k` does not suffice while depth `k + 1` does, so no
fixed attempt counter bounds correction anywhere in the call chain. -/
theorem C7_self_correction_unbounded (name task : String) (ctx : SCtx) :
    (∀ fuel, runFix name task ctx envAllFail 0 fuel = none) ∧
    (∀ k, runFix name task ctx (envFailN k) 0 k = none ∧
      (runFix name task ctx (envFailN k) 0 (k + 1)).isSome = true) :=
  ⟨fun fuel => runFix_envAllFail_none fuel 0 name task ctx,
   fun k => ⟨runFix_envFailN_none k k 0 name task ctx (by omega),
             runFix_envFailN_some k k 0 name task ctx (by omega)⟩⟩

/-! Section: workflow step-loop lemmas. -/

theorem runSteps_append (reg : Registry) (xs : List TaskDef) :
    ∀ i ys ctx, runSteps reg i (xs ++ ys) ctx =
      ((runSteps reg i xs ctx).1 ++
        (runSteps reg (i + xs.length) ys (runSteps reg i xs ctx).2).1,
       (runSteps reg (i + xs.length) ys (runSteps reg i xs ctx).2).2) := by
  induction xs with
  | nil => intro i ys ctx; simp [runSteps]
  | cons td rest ih =>
    intro i ys ctx
    have harith : i + 1 + rest.length = i + (rest.length + 1) := by omega
    cases hbad : badStepMsg reg i td with
    | some m =>
      simp only [List.cons_append, runSteps, hbad, List.append_eq, ih, List.length_cons, harith,
        List.append_assoc]
    | none =>
      simp only [List.cons_append, runSteps, hbad, List.append_eq, ih, List.length_cons, harith,
        List.append_assoc]

/-- A step resolves iff its agent type and task are non-falsy and the agent
type is in the registry (orchestrator.py lines 92-102). -/
def stepResolves (reg : Registry) (td : TaskDef) : Bool :=
  !strFalsy td.agent && !strFalsy td.task && (regGet reg (td.agent.getD "")).isSome

theorem badStepMsg_none_iff (reg : Registry) (i : Nat) (td : TaskDef) :
    badStepMsg reg i td = none ↔ stepResolves reg td = true := by
  unfold badStepMsg stepResolves
  cases hfa : strFalsy td.agent with
  | true => simp
  | false =>
    cases hft : strFalsy td.task with
    | true => simp
    | false =>
      cases hreg : regGet reg (td.agent.getD "") with
      | none => simp [hreg]
      | some ag => simp [hreg]

/-- Claim C3: a step whose agent type is missing, whose task is missing, or
whose agent type is not in the registry contributes exactly its error
message to the stream: the steps before it run unchanged, the steps after it
continue from the *same* context (the bad step mutates nothing), and the
final workflow-complete notification is still the last message. -/
theorem C3_bad_step_skipped_run_continues
    (reg : Registry) (pre post : List TaskDef) (td : TaskDef) (m : String)
    (h : badStepMsg reg pre.length td = some m) :
    (runWorkflow reg (pre ++ td :: post)).1 =
      "[INFO] Starting workflow execution..." ::
        ((runSteps reg 0 pre (wfInitCtx (pre ++ td :: post))).1 ++
          m :: (runSteps reg (pre.length + 1) post
              (runSteps reg 0 pre (wfInitCtx (pre ++ td :: post))).2).1 ++
          ["[INFO] Workflow execution complete."]) ∧
    (runWorkflow reg (pre ++ td :: post)).2 =
      (runSteps reg (pre.length + 1) post
        (runSteps reg 0 pre (wfInitCtx (pre ++ td :: post))).2).2 ∧
    (runWorkflow reg (pre ++ td :: post)).1.getLast? =
      some "[INFO] Workflow execution complete." := by
  have hsplit := runSteps_append reg pre 0 (td :: post) (wfInitCtx (pre ++ td :: post))
  have hzero : 0 + pre.length = pre.length := by omega
  rw [hzero] at hsplit
  have hstep : runSteps reg pre.length (td :: post)
      (runSteps reg 0 pre (wfInitCtx (pre ++ td :: post))).2 =
      (m :: (runSteps reg (pre.length + 1) post
          (runSteps reg 0 pre (wfInitCtx (pre ++ td :: post))).2).1,
       (runSteps reg (pre.length + 1) post
          (runSteps reg 0 pre (wfInitCtx (pre ++ td :: post))).2).2) := by
    simp [runSteps, h]
  refine ⟨?_, ?_, ?_⟩
  · simp [runWorkflow, hsplit, hstep]
  · simp [runWorkflow, hsplit, hstep]
  · have hassoc : "[INFO] Starting workflow execution..." ::
        ((runSteps reg 0 (pre ++ td :: post) (wfInitCtx (pre ++ td :: post))).1 ++
          ["[INFO] Workflow execution complete."]) =
        ("[INFO] Starting workflow execution..." ::
          (runSteps reg 0 (pre ++ td :: post) (wfInitCtx (pre ++ td :: post))).1) ++
          ["[INFO] Workflow execution complete."] := by simp
    simp only [runWorkflow, hassoc, List.getLast?_concat]

def c3Registry : Registry :=
  [("planner", ⟨"planner", fun task _ => (["STREAM_CHUNK:planner:go\n", "PLAN:" ++ task], none)⟩),
   ("test", ⟨"test", fun task _ => (["TESTS:" ++ task], none)⟩)]

def c3Pre : List TaskDef := [⟨some "s1", some "planner", some "A"⟩]
def c3Bad : TaskDef := ⟨some "s2", some "missing", some "B"⟩
def c3Post : List TaskDef := [⟨some "s3", some "test", some "C"⟩]

theorem C3_witness :
    badStepMsg c3Registry c3Pre.length c3Bad =
      some "[ERROR] Agent \x27missing\x27 not found for task \x27s2\x27." ∧
    (runWorkflow c3Registry (c3Pre ++ c3Bad :: c3Post)).1 =
      "[INFO] Starting workflow execution..." ::
        ((runSteps c3Registry 0 c3Pre (wfInitCtx (c3Pre ++ c3Bad :: c3Post))).1 ++
          "[ERROR] Agent \x27missing\x27 not found for task \x27s2\x27." ::
            (runSteps c3Registry (c3Pre.length + 1) c3Post
              (runSteps c3Registry 0 c3Pre (wfInitCtx (c3Pre ++ c3Bad :: c3Post))).2).1 ++
          ["[INFO] Workflow execution complete."]) :=
  ⟨rfl, (C3_bad_step_skipped_run_continues c3Registry c3Pre c3Post c3Bad _ rfl).1⟩

theorem octxGet_octxUpdate (k v : _) (k' : String) (ctx : OCtx) :
    octxGet (octxUpdate ctx k v) k' = if k' = k then some v else octxGet ctx k' := by
  induction ctx with
  | nil =>
    by_cases h : k' = k
    · simp [octxGet, octxUpdate, List.find?, h]
    · have hb : (k == k') = false := by
        simp [beq_eq_false_iff_ne]
        exact fun he => h he.symm
      simp [octxGet, octxUpdate, List.find?, hb, h]
  | cons p rest ih =>
    obtain ⟨k0, v0⟩ := p
    by_cases h0 : k0 = k
    · subst h0
      by_cases h : k' = k0
      · subst h
        simp [octxGet, octxUpdate, List.find?]
      · have hb : (k0 == k') = false := by
          simp [beq_eq_false_iff_ne]
          exact fun he => h he.symm
        simp [octxGet, octxUpdate, List.find?, hb, h]
    · have hb0 : (k0 == k) = false := by simp [beq_eq_false_iff_ne, h0]
      by_cases h : k' = k0
      · subst h
        simp [octxGet, octxUpdate, List.find?, hb0, if_neg h0]
      · have hb : (k0 == k') = false := by
          simp [beq_eq_false_iff_ne]
          exact fun he => h he.symm
        simp only [octxUpdate, hb0, Bool.false_eq_true, if_neg, ite_false]
        simp only [octxGet, List.find?, hb]
        exact ih

theorem strAppend_right_cancel (a b c : String) (h : a ++ c = b ++ c) : a = b := by
  have hd : a.data ++ c.data = b.data ++ c.data := by
    rw [← strData_append, ← strData_append, h]
  have hab : a.data = b.data := List.append_cancel_right hd
  cases a; cases b
  exact congrArg String.mk (by simpa using hab)

theorem strFalsy_false_some (o : Option String) (h : strFalsy o = false) : ∃ s, o = some s := by
  cases o with
  | none => simp [strFalsy] at h
  | some s => exact ⟨s, rfl⟩

/-- Steps that never successfully write under agent type `a` leave the
`<a>_output` context entry unchanged. -/
theorem runSteps_preserves_key (reg : Registry) (a : String) :
    ∀ (post : List TaskDef) (i : Nat) (ctx : OCtx),
      (∀ td ∈ post, stepResolves reg td = true → td.agent ≠ some a) →
      octxGet (runSteps reg i post ctx).2 (a ++ "_output") = octxGet ctx (a ++ "_output") := by
  intro post
  induction post with
  | nil => intro i ctx _; rfl
  | cons td rest ih =>
    intro i ctx hpost
    cases hbad : badStepMsg reg i td with
    | some m =>
      simp only [runSteps, hbad]
      exact ih (i + 1) ctx (fun td' h' => hpost td' (List.mem_cons_of_mem td h'))
    | none =>
      have hres : stepResolves reg td = true := (badStepMsg_none_iff reg i td).mp hbad
      have hne : td.agent ≠ some a := hpost td (List.mem_cons_self td rest) hres
      have hfa : strFalsy td.agent = false := by
        have := hres
        unfold stepResolves at this
        simp only [Bool.and_eq_true, Bool.not_eq_true'] at this
        exact this.1.1
      obtain ⟨b, hb⟩ := strFalsy_false_some td.agent hfa
      have hba : b ≠ a := fun he => hne (he ▸ hb)
      have hkey : td.agent.getD "" ++ "_output" ≠ a ++ "_output" := by
        rw [hb]
        intro hk
        exact hba (strAppend_right_cancel b a "_output" hk)
      simp only [runSteps, hbad]
      rw [ih (i + 1) _ (fun td' h' => hpost td' (List.mem_cons_of_mem td h'))]
      rw [updateContext, octxGet_octxUpdate]
      simp [Ne.symm hkey]

/-- Claim C5, amended: after `RunWorkflow`, for a successfully resolved step
of agent type `a` such that *no later step of the same agent type also
resolves*, the context entry `<a>_output` equals the concatenation of that
payload chunks of that step.  (As stated over *every* resolved step the claim is
false: when two steps share an agent type they share one context key and the
later step overwrites the earlier output — see the counterexample.) -/
theorem C5_amended_last_step_output
    (reg : Registry) (pre post : List TaskDef) (td : TaskDef) (a : String) (ag : AgentI)
    (ha : td.agent = some a)
    (hres : stepResolves reg td = true)
    (hag : regGet reg a = some ag)
    (hpost : ∀ td' ∈ post, stepResolves reg td' = true → td'.agent ≠ some a) :
    octxGet (runWorkflow reg (pre ++ td :: post)).2 (a ++ "_output") =
      some (CtxVal.vStr (payloadOf (execTask ag (td.task.getD "")
        (runSteps reg 0 pre (wfInitCtx (pre ++ td :: post))).2))) := by
  have hbad : badStepMsg reg pre.length td = none := (badStepMsg_none_iff reg pre.length td).mpr hres
  have hsplit := runSteps_append reg pre 0 (td :: post) (wfInitCtx (pre ++ td :: post))
  have hzero : 0 + pre.length = pre.length := by omega
  rw [hzero] at hsplit
  set cmid := (runSteps reg 0 pre (wfInitCtx (pre ++ td :: post))).2 with hcmid
  have hgetd : td.agent.getD "" = a := by rw [ha]; rfl
  have hstep : runSteps reg pre.length (td :: post) cmid =
      (("[INFO] Executing task \x27" ++ taskName pre.length td ++ "\x27 with agent \x27" ++ a ++ "\x27.") ::
        execTask ag (td.task.getD "") cmid ++
        (runSteps reg (pre.length + 1) post
          (updateContext cmid (a ++ "_output")
            (CtxVal.vStr (payloadOf (execTask ag (td.task.getD "") cmid))))).1,
       (runSteps reg (pre.length + 1) post
          (updateContext cmid (a ++ "_output")
            (CtxVal.vStr (payloadOf (execTask ag (td.task.getD "") cmid))))).2) := by
    simp only [runSteps, hbad, hgetd, hag, Option.getD_some]
  rw [runWorkflow]
  simp only [hsplit, ← hcmid, hstep]
  rw [runSteps_preserves_key reg a post (pre.length + 1) _ hpost]
  rw [updateContext, octxGet_octxUpdate]
  simp

/-- The echo agent used in the context-merge scenario: its only payload
chunk is the task string itself. -/
def c5Agent : AgentI := ⟨"codegen", fun task _ => ([task], none)⟩

def c5Reg : Registry := [("codegen", c5Agent)]

/-- Two steps sharing agent type `codegen`. -/
def c5Wf : List TaskDef :=
  [⟨some "s1", some "codegen", some "A"⟩, ⟨some "s2", some "codegen", some "B"⟩]

/-- Claim C5 counterexample: in a workflow whose two steps both resolve the
`codegen` agent, step `s1` resolves successfully and its payload
concatenation is `"A"`, yet after the run `context["codegen_output"]` is
`"B"` (the later step overwrote the shared key) — so the claimed equality
does not hold for *every* successfully resolved step. -/
theorem C5_counterexample_duplicate_agent_type :
    stepResolves c5Reg ⟨some "s1", some "codegen", some "A"⟩ = true ∧
    payloadOf (execTask c5Agent "A" (wfInitCtx c5Wf)) = "A" ∧
    octxGet (runWorkflow c5Reg c5Wf).2 ("codegen" ++ "_output") = some (CtxVal.vStr "B") ∧
    some (CtxVal.vStr "B") ≠ some (CtxVal.vStr "A") := by
  refine ⟨rfl, by decide, by decide, by decide⟩

theorem C5_witness :
    octxGet (runWorkflow c5Reg [⟨some "s1", some "codegen", some "A"⟩]).2 ("codegen" ++ "_output") =
      some (CtxVal.vStr (payloadOf (execTask c5Agent "A"
        (runSteps c5Reg 0 [] (wfInitCtx [⟨some "s1", some "codegen", some "A"⟩])).2))) :=
  C5_amended_last_step_output c5Reg [] [] ⟨some "s1", some "codegen", some "A"⟩ "codegen" c5Agent
    rfl rfl rfl (by intro td' h'; cases h')

/-! Section: lifecycle buffering lemmas — every payload chunk a body yields, and
every artifact content it hands to persistence, is a fully buffered LLM
response that passed validation and rule enforcement — for the five
buffer-validate-emit bodies (the TestAgent body is the exception, see the C1
counterexample). -/

theorem codegenBody_spec (name : String) (e : AttemptEnv) :
    (∀ x ∈ (codegenBody name e).chunks, isProgressChunk x = true ∨ validatedFull e = some x) ∧
    (∀ w ∈ (codegenBody name e).written, validatedFull e = some w) := by
  obtain ⟨pr, lr, rr, per, cf⟩ := e
  unfold codegenBody validatedFull
  cases pr with
  | error pe => simp [sChunk_progress]
  | ok p =>
    cases lr with
    | error pe => simp [sChunk_progress]
    | ok lcs =>
      by_cases hbl : (strIsBlank (joinAll lcs) || containsStr (joinAll lcs) "[ERROR]") = true
      · simp [hbl, sChunk_progress]
      · rw [Bool.not_eq_true] at hbl
        cases rr with
        | error pe => simp [hbl, sChunk_progress]
        | ok vs =>
          by_cases hvs : vs.isEmpty = true
          · simp [hbl, hvs, sChunk_progress]
          · rw [Bool.not_eq_true] at hvs
            simp [hbl, hvs, sChunk_progress]

theorem plannerBody_spec (name : String) (ctx : SCtx) (e : AttemptEnv) :
    (∀ x ∈ (plannerBody name ctx e).chunks, isProgressChunk x = true ∨ validatedFull e = some x) ∧
    (∀ w ∈ (plannerBody name ctx e).written, validatedFull e = some w) := by
  obtain ⟨pr, lr, rr, per, cf⟩ := e
  unfold plannerBody validatedFull
  cases pr with
  | error pe => simp [sChunk_progress]
  | ok p =>
    cases lr with
    | error pe => simp [sChunk_progress]
    | ok lcs =>
      by_cases hbl : (strIsBlank (joinAll lcs) || containsStr (joinAll lcs) "[ERROR]") = true
      · simp [hbl, sChunk_progress]
      · rw [Bool.not_eq_true] at hbl
        cases rr with
        | error pe => simp [hbl, sChunk_progress]
        | ok vs =>
          by_cases hvs : vs.isEmpty = true
          · by_cases hpf : strFalsy (sctxGet ctx "parent_folder_id") = true
            · simp [hbl, hvs, hpf, sChunk_progress]
            · rw [Bool.not_eq_true] at hpf
              cases per with
              | error pe => simp [hbl, hvs, hpf, sChunk_progress]
              | ok fid =>
                cases fid with
                | none => simp [hbl, hvs, hpf, sChunk_progress]
                | some f => simp [hbl, hvs, hpf, sChunk_progress]
          · rw [Bool.not_eq_true] at hvs
            simp [hbl, hvs, sChunk_progress]

theorem docBody_spec (name : String) (ctx : SCtx) (e : AttemptEnv) :
    (∀ x ∈ (docBody name ctx e).chunks, isProgressChunk x = true ∨ validatedFull e = some x) ∧
    (∀ w ∈ (docBody name ctx e).written, validatedFull e = some w) := by
  obtain ⟨pr, lr, rr, per, cf⟩ := e
  unfold docBody validatedFull
  cases pr with
  | error pe => simp [sChunk_progress]
  | ok p =>
    cases lr with
    | error pe => simp [sChunk_progress]
    | ok lcs =>
      by_cases hbl : (strIsBlank (joinAll lcs) || containsStr (joinAll lcs) "[ERROR]") = true
      · simp [hbl, sChunk_progress]
      · rw [Bool.not_eq_true] at hbl
        cases rr with
        | error pe => simp [hbl, sChunk_progress]
        | ok vs =>
          by_cases hvs : vs.isEmpty = true
          · cases per with
            | error pe => simp [hbl, hvs, sChunk_progress]
            | ok fid =>
              cases fid with
              | none => simp [hbl, hvs, sChunk_progress]
              | some f => simp [hbl, hvs, sChunk_progress]
          · rw [Bool.not_eq_true] at hvs
            simp [hbl, hvs, sChunk_progress]

theorem fixBody_spec (name : String) (ctx : SCtx) (e : AttemptEnv) :
    (∀ x ∈ (fixBody name ctx e).chunks, isProgressChunk x = true ∨ validatedFull e = some x) ∧
    (∀ w ∈ (fixBody name ctx e).written, validatedFull e = some w) := by
  obtain ⟨pr, lr, rr, per, cf⟩ := e
  unfold fixBody validatedFull
  cases pr with
  | error pe => simp [sChunk_progress]
  | ok p =>
    cases lr with
    | error pe => simp [sChunk_progress]
    | ok lcs =>
      by_cases hbl : (strIsBlank (joinAll lcs) || containsStr (joinAll lcs) "[ERROR]") = true
      · simp [hbl, sChunk_progress]
      · rw [Bool.not_eq_true] at hbl
        cases rr with
        | error pe => simp [hbl, sChunk_progress]
        | ok vs =>
          by_cases hvs : vs.isEmpty = true
          · cases per with
            | error pe => simp [hbl, hvs, sChunk_progress]
            | ok fid =>
              cases fid with
              | none => simp [hbl, hvs, sChunk_progress]
              | some f => simp [hbl, hvs, sChunk_progress]
          · rw [Bool.not_eq_true] at hvs
            simp [hbl, hvs, sChunk_progress]

theorem qaBody_spec (name : String) (ctx : SCtx) (e : AttemptEnv) :
    (∀ x ∈ (qaBody name ctx e).chunks, isProgressChunk x = true ∨ validatedFull e = some x) ∧
    (∀ w ∈ (qaBody name ctx e).written, validatedFull e = some w) := by
  obtain ⟨pr, lr, rr, per, cf⟩ := e
  unfold qaBody validatedFull
  cases pr with
  | error pe => simp [sChunk_progress]
  | ok p =>
    cases lr with
    | error pe => simp [sChunk_progress]
    | ok lcs =>
      by_cases hbl : (strIsBlank (joinAll lcs) || containsStr (joinAll lcs) "[ERROR]") = true
      · simp [hbl, sChunk_progress]
      · rw [Bool.not_eq_true] at hbl
        cases rr with
        | error pe => simp [hbl, sChunk_progress]
        | ok vs =>
          by_cases hvs : vs.isEmpty = true
          · by_cases hop : (opTypeOf ctx "answer_with_context" != "answer_without_context") = true
            · cases per with
              | error pe => simp [hbl, hvs, hop, sChunk_progress]
              | ok fid =>
                cases fid with
                | none => simp [hbl, hvs, hop, sChunk_progress]
                | some f => simp [hbl, hvs, hop, sChunk_progress]
            · rw [Bool.not_eq_true] at hop
              simp [hbl, hvs, hop, sChunk_progress]
          · rw [Bool.not_eq_true] at hvs
            simp [hbl, hvs, sChunk_progress]

theorem scOpenChunk_progress (an et ed : String) : isProgressChunk (scOpenChunk an et ed) = true :=
  sChunk_progress _ _

theorem scCloseChunk_progress (an : String) : isProgressChunk (scCloseChunk an) = true :=
  sChunk_progress _ _

theorem scCritChunk_progress (an m : String) : isProgressChunk (scCritChunk an m) = true :=
  sChunk_progress _ _

/-- The coordinator wrapper never raises, only adds progress chunks of its
own, and persists nothing of its own. -/
theorem scWrap_spec (an et ed : String) (cf : Option String) (fixRes : Option RunOut)
    (sc : RunOut) (h : scWrap an et ed cf fixRes = some sc) :
    sc.esc = none ∧
    (∀ x ∈ sc.chunks, isProgressChunk x = true ∨ ∃ r, fixRes = some r ∧ x ∈ r.chunks) ∧
    (∀ w ∈ sc.written, ∃ r, fixRes = some r ∧ w ∈ r.written) := by
  cases cf with
  | some ce =>
    have he : scWrap an et ed (some ce) fixRes =
        some ⟨[scOpenChunk an et ed, scCritChunk an ce], none, []⟩ := rfl
    rw [he] at h
    simp only [Option.some.injEq] at h
    subst h
    refine ⟨rfl, ?_, ?_⟩
    · intro x hx
      simp only [List.mem_cons, List.not_mem_nil, or_false, or_assoc] at hx
      rcases hx with h1 | h1
      · exact Or.inl (h1 ▸ scOpenChunk_progress an et ed)
      · exact Or.inl (h1 ▸ scCritChunk_progress an ce)
    · intro w hw; cases hw
  | none =>
    cases fixRes with
    | none => cases h
    | some r =>
      obtain ⟨cs, esc, wr⟩ := r
      cases esc with
      | none =>
        have he : scWrap an et ed none (some ⟨cs, none, wr⟩) =
            some ⟨scOpenChunk an et ed :: cs ++ [scCloseChunk an], none, wr⟩ := rfl
        rw [he] at h
        simp only [Option.some.injEq] at h
        subst h
        refine ⟨rfl, ?_, ?_⟩
        · intro x hx
          simp only [List.mem_cons, List.mem_append, List.mem_singleton, or_assoc,
            List.not_mem_nil, or_false] at hx
          rcases hx with h1 | h1 | h1
          · exact Or.inl (h1 ▸ scOpenChunk_progress an et ed)
          · exact Or.inr ⟨⟨cs, none, wr⟩, rfl, h1⟩
          · exact Or.inl (h1 ▸ scCloseChunk_progress an)
        · intro w hw; exact ⟨⟨cs, none, wr⟩, rfl, hw⟩
      | some e2 =>
        have he : scWrap an et ed none (some ⟨cs, some e2, wr⟩) =
            some ⟨scOpenChunk an et ed :: cs ++ [scCritChunk an e2], none, wr⟩ := rfl
        rw [he] at h
        simp only [Option.some.injEq] at h
        subst h
        refine ⟨rfl, ?_, ?_⟩
        · intro x hx
          simp only [List.mem_cons, List.mem_append, List.mem_singleton, or_assoc,
            List.not_mem_nil, or_false] at hx
          rcases hx with h1 | h1 | h1
          · exact Or.inl (h1 ▸ scOpenChunk_progress an et ed)
          · exact Or.inr ⟨⟨cs, some e2, wr⟩, rfl, h1⟩
          · exact Or.inl (h1 ▸ scCritChunk_progress an e2)
        · intro w hw; exact ⟨⟨cs, some e2, wr⟩, rfl, hw⟩

/-- The fix lifecycle (with its recursive self-correction): whenever it
terminates it does so without raising, with a non-empty stream whose every
payload chunk is a validated buffered response of some attempt, and having
handed only validated responses to persistence. -/
theorem runFix_spec (envs : Nat → AttemptEnv) : ∀ (fuel i : Nat) (name task : String)
    (ctx : SCtx) (r : RunOut), runFix name task ctx envs i fuel = some r →
    r.esc = none ∧ r.chunks ≠ [] ∧
    (∀ x ∈ r.chunks, isProgressChunk x = true ∨ ∃ j, validatedFull (envs j) = some x) ∧
    (∀ w ∈ r.written, ∃ j, validatedFull (envs j) = some w) := by
  intro fuel
  induction fuel with
  | zero => intro i name task ctx r h; cases h
  | succ f ih =>
    intro i name task ctx r h
    rw [runFix] at h
    split at h
    case _ hb =>
      -- body ended normally
      simp only [Option.some.injEq] at h
      subst h
      refine ⟨rfl, by simp, ?_, ?_⟩
      · intro x hx
        simp only [List.mem_cons] at hx
        rcases hx with h1 | h1
        · exact Or.inl (h1 ▸ sChunk_progress _ _)
        · rcases (fixBody_spec name ctx (envs i)).1 x h1 with hp | hv
          · exact Or.inl hp
          · exact Or.inr ⟨i, hv⟩
      · intro w hw
        exact ⟨i, (fixBody_spec name ctx (envs i)).2 w hw⟩
    case _ d t g hb =>
      -- in-body correction outcome (not produced by fixBody, handled anyway)
      split at h
      case _ => cases h
      case _ sc hsc =>
        simp only [Option.some.injEq] at h
        subst h
        obtain ⟨hesc, hch, hwr⟩ := scWrap_spec _ _ _ _ _ _ hsc
        refine ⟨hesc, by simp, ?_, ?_⟩
        · intro x hx
          simp only [List.mem_cons, List.mem_append, or_assoc] at hx
          rcases hx with h1 | h1 | h1
          · exact Or.inl (h1 ▸ sChunk_progress _ _)
          · rcases (fixBody_spec name ctx (envs i)).1 x h1 with hp | hv
            · exact Or.inl hp
            · exact Or.inr ⟨i, hv⟩
          · rcases hch x h1 with hp | ⟨r', hr', hx'⟩
            · exact Or.inl hp
            · rcases (ih (i + 1) name _ ctx r' hr').2.2.1 x hx' with hp | hv
              · exact Or.inl hp
              · exact hv.elim (fun j hj => Or.inr ⟨j, hj⟩)
        · intro w hw
          simp only [List.mem_append] at hw
          rcases hw with h1 | h1
          · exact ⟨i, (fixBody_spec name ctx (envs i)).2 w h1⟩
          · rcases hwr w h1 with ⟨r', hr', hw'⟩
            exact (ih (i + 1) name _ ctx r' hr').2.2.2 w hw'
    case _ pe hb =>
      -- body raised: except handler + self-correction
      split at h
      case _ => cases h
      case _ sc hsc =>
        simp only [Option.some.injEq] at h
        subst h
        obtain ⟨hesc, hch, hwr⟩ := scWrap_spec _ _ _ _ _ _ hsc
        refine ⟨hesc, by simp, ?_, ?_⟩
        · intro x hx
          simp only [List.mem_cons, List.mem_append, or_assoc] at hx
          rcases hx with h1 | h1 | h1 | h1
          · exact Or.inl (h1 ▸ sChunk_progress _ _)
          · rcases (fixBody_spec name ctx (envs i)).1 x h1 with hp | hv
            · exact Or.inl hp
            · exact Or.inr ⟨i, hv⟩
          · exact Or.inl (h1 ▸ sChunk_progress _ _)
          · rcases hch x h1 with hp | ⟨r', hr', hx'⟩
            · exact Or.inl hp
            · rcases (ih (i + 1) name _ ctx r' hr').2.2.1 x hx' with hp | hv
              · exact Or.inl hp
              · exact hv.elim (fun j hj => Or.inr ⟨j, hj⟩)
        · intro w hw
          simp only [List.mem_append] at hw
          rcases hw with h1 | h1
          · exact ⟨i, (fixBody_spec name ctx (envs i)).2 w h1⟩
          · rcases hwr w h1 with ⟨r', hr', hw'⟩
            exact (ih (i + 1) name _ ctx r' hr').2.2.2 w hw'

/-- Model fact: `agent_self_correct` inherits the discipline of the fix lifecycle and never
raises. -/
theorem agentSelfCorrect_spec (an ot : String) (ctx : SCtx) (d t g : String)
    (envs : Nat → AttemptEnv) (fuel : Nat) (sc : RunOut)
    (h : agentSelfCorrect an ot ctx d t g envs fuel = some sc) :
    sc.esc = none ∧
    (∀ x ∈ sc.chunks, isProgressChunk x = true ∨ ∃ j, validatedFull (envs j) = some x) ∧
    (∀ w ∈ sc.written, ∃ j, validatedFull (envs j) = some w) := by
  unfold agentSelfCorrect at h
  obtain ⟨hesc, hch, hwr⟩ := scWrap_spec _ _ _ _ _ _ h
  refine ⟨hesc, ?_, ?_⟩
  · intro x hx
    rcases hch x hx with hp | ⟨r', hr', hx'⟩
    · exact Or.inl hp
    · exact (runFix_spec envs fuel 1 an _ ctx r' hr').2.2.1 x hx'
  · intro w hw
    rcases hwr w hw with ⟨r', hr', hw'⟩
    exact (runFix_spec envs fuel 1 an _ ctx r' hr').2.2.2 w hw'

/-- The shared run assembly inherits the discipline of the body and of the coordinator;
discipline; the stream always opens with the start chunk. -/
theorem assembleRun_spec (name task : String) (ctx : SCtx) (envs : Nat → AttemptEnv)
    (fuel : Nat) (startC guidance : String) (b : BodyOut) (r : RunOut)
    (hst : isProgressChunk startC = true)
    (hbody : (∀ x ∈ b.chunks, isProgressChunk x = true ∨ validatedFull (envs 0) = some x) ∧
             (∀ w ∈ b.written, validatedFull (envs 0) = some w))
    (h : assembleRun name task ctx envs fuel startC guidance b = some r) :
    r.esc = none ∧ r.chunks ≠ [] ∧
    (∀ x ∈ r.chunks, isProgressChunk x = true ∨ ∃ j, validatedFull (envs j) = some x) ∧
    (∀ w ∈ r.written, ∃ j, validatedFull (envs j) = some w) := by
  rw [assembleRun] at h
  split at h
  case _ hb =>
    simp only [Option.some.injEq] at h
    subst h
    refine ⟨rfl, by simp, ?_, ?_⟩
    · intro x hx
      simp only [List.mem_cons] at hx
      rcases hx with h1 | h1
      · exact Or.inl (h1 ▸ hst)
      · rcases hbody.1 x h1 with hp | hv
        · exact Or.inl hp
        · exact Or.inr ⟨0, hv⟩
    · intro w hw
      exact ⟨0, hbody.2 w hw⟩
  case _ d t g hb =>
    split at h
    case _ => cases h
    case _ sc hsc =>
      simp only [Option.some.injEq] at h
      subst h
      obtain ⟨hesc, hch, hwr⟩ := agentSelfCorrect_spec _ _ _ _ _ _ _ _ _ hsc
      refine ⟨hesc, by simp, ?_, ?_⟩
      · intro x hx
        simp only [List.mem_cons, List.mem_append, or_assoc] at hx
        rcases hx with h1 | h1 | h1
        · exact Or.inl (h1 ▸ hst)
        · rcases hbody.1 x h1 with hp | hv
          · exact Or.inl hp
          · exact Or.inr ⟨0, hv⟩
        · exact hch x h1
      · intro w hw
        simp only [List.mem_append] at hw
        rcases hw with h1 | h1
        · exact ⟨0, hbody.2 w h1⟩
        · exact hwr w h1
  case _ pe hb =>
    split at h
    case _ => cases h
    case _ sc hsc =>
      simp only [Option.some.injEq] at h
      subst h
      obtain ⟨hesc, hch, hwr⟩ := agentSelfCorrect_spec _ _ _ _ _ _ _ _ _ hsc
      refine ⟨hesc, by simp, ?_, ?_⟩
      · intro x hx
        simp only [List.mem_cons, List.mem_append, or_assoc] at hx
        rcases hx with h1 | h1 | h1 | h1
        · exact Or.inl (h1 ▸ hst)
        · rcases hbody.1 x h1 with hp | hv
          · exact Or.inl hp
          · exact Or.inr ⟨0, hv⟩
        · exact Or.inl (h1 ▸ sChunk_progress _ _)
        · exact hch x h1
      · intro w hw
        simp only [List.mem_append] at hw
        rcases hw with h1 | h1
        · exact ⟨0, hbody.2 w h1⟩
        · exact hwr w h1

/-- Claim C1, amended: for the codegen, planner, doc, fix and qa agents,
every payload chunk (not `STREAM_CHUNK:`-prefixed) of a terminating `Run`
stream is the fully buffered LLM response of some lifecycle attempt that
passed the empty/error-marker validation and rule enforcement, and every
content handed to the persistence layer is such a validated response.  (The
claim as stated over *every* agent type is false: `TestAgent.run` yields
unprefixed error-message chunks precisely when validation or rule
enforcement fails — see the counterexample.) -/
theorem C1_amended_payload_only_validated
    (k : AgentKind) (name task : String) (ctx : SCtx) (envs : Nat → AttemptEnv)
    (fuel : Nat) (r : RunOut)
    (hk : k ≠ AgentKind.test)
    (h : runAgent k name task ctx envs fuel = some r) :
    (∀ x ∈ r.chunks, isProgressChunk x = true ∨ ∃ j, validatedFull (envs j) = some x) ∧
    (∀ w ∈ r.written, ∃ j, validatedFull (envs j) = some w) := by
  cases k with
  | codegen =>
    have := assembleRun_spec name task ctx envs fuel _ _ _ r (sChunk_progress _ _)
      (codegenBody_spec name (envs 0)) h
    exact ⟨this.2.2.1, this.2.2.2⟩
  | planner =>
    have := assembleRun_spec name task ctx envs fuel _ _ _ r (sChunk_progress _ _)
      (plannerBody_spec name ctx (envs 0)) h
    exact ⟨this.2.2.1, this.2.2.2⟩
  | doc =>
    have := assembleRun_spec name task ctx envs fuel _ _ _ r (sChunk_progress _ _)
      (docBody_spec name ctx (envs 0)) h
    exact ⟨this.2.2.1, this.2.2.2⟩
  | qa =>
    have := assembleRun_spec name task ctx envs fuel _ _ _ r (sChunk_progress _ _)
      (qaBody_spec name ctx (envs 0)) h
    exact ⟨this.2.2.1, this.2.2.2⟩
  | fix =>
    have := runFix_spec envs fuel 0 name task ctx r h
    exact ⟨this.2.2.1, this.2.2.2⟩
  | test => exact absurd rfl hk

/-- Environment of the C1 counterexample: the first LLM call of the test agent
returns an empty response (validation fails); every later attempt succeeds
so the stream terminates. -/
def c1Envs : Nat → AttemptEnv :=
  fun i => if i = 0 then ⟨.ok "P", .ok [""], .ok [], .ok (some "f0"), none⟩
           else ⟨.ok "P", .ok ["FIXED"], .ok [], .ok (some "f1"), none⟩

def c1Run : RunOut := (runAgent .test "test" "t" [] c1Envs 2).getD default

/-- Claim C1 counterexample: at this input the buffered LLM
response never passes validation (`validatedFull (c1Envs 0) = none`), yet
the very first chunk of the `Run` stream is the *unprefixed* — hence
payload — error message `"[test] LLM workflow failed or returned empty
response."`: a payload chunk is emitted although the LLM response has not
passed the empty/error-marker validation. -/
theorem C1_counterexample_test_payload_before_validation :
    runAgent .test "test" "t" [] c1Envs 2 = some c1Run ∧
    validatedFull (c1Envs 0) = none ∧
    c1Run.chunks.head? = some "[test] LLM workflow failed or returned empty response." ∧
    isProgressChunk "[test] LLM workflow failed or returned empty response." = false := by
  refine ⟨rfl, by decide, by decide, by decide⟩

def c1wEnvs : Nat → AttemptEnv := fun _ => ⟨.ok "P", .ok ["OUT"], .ok [], .ok (some "fid"), none⟩

theorem C1_amended_witness :
    runAgent .codegen "gen" "t" [] c1wEnvs 1 =
      some ⟨[sChunk "gen" "[gen] Starting code generation task: t",
             sChunk "gen" "[gen] Generating code...",
             sChunk "gen" "[gen] Validating response...",
             sChunk "gen" "[gen] Validation passed. Streaming now...",
             "OUT",
             sChunk "gen" "[SUCCESS] [gen] Task completed successfully."], none, []⟩ ∧
    (∀ x ∈ (⟨[sChunk "gen" "[gen] Starting code generation task: t",
             sChunk "gen" "[gen] Generating code...",
             sChunk "gen" "[gen] Validating response...",
             sChunk "gen" "[gen] Validation passed. Streaming now...",
             "OUT",
             sChunk "gen" "[SUCCESS] [gen] Task completed successfully."], none, []⟩ : RunOut).chunks,
      isProgressChunk x = true ∨ ∃ j, validatedFull (c1wEnvs j) = some x) := by
  refine ⟨by decide, ?_⟩
  exact (C1_amended_payload_only_validated .codegen "gen" "t" [] c1wEnvs 1 _
    (by intro hc; cases hc) (by decide)).1

/-- A lifecycle attempt in which every collaborator succeeds: prompt built,
LLM response validated and rule-clean, artifact saved, coordinator healthy. -/
def envOkB (e : AttemptEnv) : Bool :=
  (match e.promptResult with | .ok _ => true | .error _ => false) &&
  (validatedFull e).isSome &&
  (match e.persistResult with | .ok (some _) => true | _ => false) &&
  e.coordFail.isNone

theorem envOkB_coordFail (e : AttemptEnv) (he : envOkB e = true) : e.coordFail = none := by
  unfold envOkB at he
  simp only [Bool.and_eq_true] at he
  exact Option.isNone_iff_eq_none.mp he.2

theorem fixBody_ok_of_envOk (name : String) (ctx : SCtx) (e : AttemptEnv)
    (he : envOkB e = true) : (fixBody name ctx e).outcome = BodyEnd.ok := by
  obtain ⟨pr, lr, rr, per, cf⟩ := e
  unfold envOkB validatedFull at he
  unfold fixBody
  cases pr with
  | error pe => simp at he
  | ok p =>
    cases lr with
    | error pe => simp at he
    | ok lcs =>
      by_cases hbl : (strIsBlank (joinAll lcs) || containsStr (joinAll lcs) "[ERROR]") = true
      · simp [hbl] at he
      · rw [Bool.not_eq_true] at hbl
        cases rr with
        | error pe => simp [hbl] at he
        | ok vs =>
          by_cases hvs : vs.isEmpty = true
          · cases per with
            | error pe => simp [hbl, hvs] at he
            | ok fid =>
              cases fid with
              | none => simp [hbl, hvs] at he
              | some f => simp [hbl, hvs]
          · simp [hbl, hvs] at he

theorem runFix_isSome_of_envOk (name task : String) (ctx : SCtx) (envs : Nat → AttemptEnv)
    (i fuel : Nat) (hf : 1 ≤ fuel) (he : envOkB (envs i) = true) :
    (runFix name task ctx envs i fuel).isSome = true := by
  cases fuel with
  | zero => omega
  | succ f =>
    simp only [runFix]
    rw [fixBody_ok_of_envOk name ctx (envs i) he]
    rfl

theorem agentSelfCorrect_isSome (an ot : String) (ctx : SCtx) (d t g : String)
    (envs : Nat → AttemptEnv) (fuel : Nat)
    (hf : 1 ≤ fuel) (he : envOkB (envs 1) = true) :
    (agentSelfCorrect an ot ctx d t g envs fuel).isSome = true := by
  have hcf : (envs 1).coordFail = none := envOkB_coordFail _ he
  obtain ⟨r, hr⟩ := Option.isSome_iff_exists.mp
    (runFix_isSome_of_envOk an (mkFixTask an ot t d (ctxRepr ctx) g) ctx envs 1 fuel hf he)
  unfold agentSelfCorrect
  rw [hcf, hr]
  obtain ⟨cs, esc, wr⟩ := r
  cases esc <;> rfl

theorem scWrap_chunks_nonempty (an et ed : String) (cf : Option String)
    (fixRes : Option RunOut) (sc : RunOut) (h : scWrap an et ed cf fixRes = some sc) :
    sc.chunks ≠ [] := by
  cases cf with
  | some ce =>
    have he : scWrap an et ed (some ce) fixRes =
        some ⟨[scOpenChunk an et ed, scCritChunk an ce], none, []⟩ := rfl
    rw [he] at h
    simp only [Option.some.injEq] at h
    subst h
    simp
  | none =>
    cases fixRes with
    | none => cases h
    | some r =>
      obtain ⟨cs, esc, wr⟩ := r
      cases esc with
      | none =>
        have he : scWrap an et ed none (some ⟨cs, none, wr⟩) =
            some ⟨scOpenChunk an et ed :: cs ++ [scCloseChunk an], none, wr⟩ := rfl
        rw [he] at h
        simp only [Option.some.injEq] at h
        subst h
        simp
      | some e2 =>
        have he : scWrap an et ed none (some ⟨cs, some e2, wr⟩) =
            some ⟨scOpenChunk an et ed :: cs ++ [scCritChunk an e2], none, wr⟩ := rfl
        rw [he] at h
        simp only [Option.some.injEq] at h
        subst h
        simp

theorem agentSelfCorrect_chunks_nonempty (an ot : String) (ctx : SCtx) (d t g : String)
    (envs : Nat → AttemptEnv) (fuel : Nat) (sc : RunOut)
    (h : agentSelfCorrect an ot ctx d t g envs fuel = some sc) : sc.chunks ≠ [] :=
  scWrap_chunks_nonempty _ _ _ _ _ _ h

theorem testBody_ok_chunks_nonempty (name : String) (ctx : SCtx) (e : AttemptEnv)
    (h : (testBody name ctx e).outcome = BodyEnd.ok) : (testBody name ctx e).chunks ≠ [] := by
  obtain ⟨pr, lr, rr, per, cf⟩ := e
  unfold testBody at h ⊢
  by_cases hop1 : (opTypeOf ctx "generate_tests" == "generate_tests") = true
  · simp only [hop1, if_true] at h ⊢
    cases pr with
    | error pe => simp at h
    | ok p =>
      cases lr with
      | error pe => simp at h
      | ok lcs =>
        by_cases hbl : (strIsBlank (joinAll lcs) || containsStr (joinAll lcs) "[ERROR]") = true
        · simp [hbl] at h
        · rw [Bool.not_eq_true] at hbl
          cases rr with
          | error pe => simp [hbl] at h
          | ok vs =>
            by_cases hvs : vs.isEmpty = true
            · cases per with
              | error pe => simp [hbl, hvs] at h
              | ok fid =>
                cases fid with
                | none => simp [hbl, hvs]
                | some f => simp [hbl, hvs]
            · rw [Bool.not_eq_true] at hvs
              simp [hbl, hvs] at h
  · rw [Bool.not_eq_true] at hop1
    simp only [hop1, Bool.false_eq_true, if_false] at h ⊢
    by_cases hop2 : (opTypeOf ctx "generate_tests" == "write_test_results") = true
    · simp only [hop2, if_true] at h ⊢
      by_cases hpf : strFalsy (sctxGet ctx "parent_folder_id") = true
      · simp [hpf] at h
      · rw [Bool.not_eq_true] at hpf
        cases per with
        | error pe => simp [hpf] at h
        | ok fid =>
          cases fid with
          | none => simp [hpf]
          | some f => simp [hpf]
    · rw [Bool.not_eq_true] at hop2
      simp [hop2] at h

theorem assembleRun_isSome (name task : String) (ctx : SCtx) (envs : Nat → AttemptEnv)
    (fuel : Nat) (startC guidance : String) (b : BodyOut)
    (hf : 1 ≤ fuel) (he : envOkB (envs 1) = true) :
    (assembleRun name task ctx envs fuel startC guidance b).isSome = true := by
  rw [assembleRun]
  split
  · rfl
  case _ d t g _ =>
    obtain ⟨sc, hsc⟩ := Option.isSome_iff_exists.mp
      (agentSelfCorrect_isSome name task ctx d t g envs fuel hf he)
    rw [hsc]
    rfl
  case _ pe _ =>
    obtain ⟨sc, hsc⟩ := Option.isSome_iff_exists.mp
      (agentSelfCorrect_isSome name task ctx pe.msg "agent_execution_error" guidance envs fuel hf he)
    rw [hsc]
    rfl

/-- Claim C2: for every agent type and every collaborator failure behaviour
(failures anywhere in prompt construction, the LLM call, validation, rule
enforcement or persistence — steps 2-6 of §4.1), a terminating `Run` never
propagates an exception to its caller and always yields a non-empty chunk
stream; and when the collaborators of the (first) corrective fix attempt succeed,
`Run` does terminate. -/
theorem C2_run_never_raises_nonempty
    (k : AgentKind) (name task : String) (ctx : SCtx) (envs : Nat → AttemptEnv) (fuel : Nat) :
    (∀ r, runAgent k name task ctx envs fuel = some r → r.esc = none ∧ r.chunks ≠ []) ∧
    (2 ≤ fuel → envOkB (envs 1) = true → (runAgent k name task ctx envs fuel).isSome = true) := by
  constructor
  · intro r h
    cases k with
    | codegen =>
      have := assembleRun_spec name task ctx envs fuel _ _ _ r (sChunk_progress _ _)
        (codegenBody_spec name (envs 0)) h
      exact ⟨this.1, this.2.1⟩
    | planner =>
      have := assembleRun_spec name task ctx envs fuel _ _ _ r (sChunk_progress _ _)
        (plannerBody_spec name ctx (envs 0)) h
      exact ⟨this.1, this.2.1⟩
    | doc =>
      have := assembleRun_spec name task ctx envs fuel _ _ _ r (sChunk_progress _ _)
        (docBody_spec name ctx (envs 0)) h
      exact ⟨this.1, this.2.1⟩
    | qa =>
      have := assembleRun_spec name task ctx envs fuel _ _ _ r (sChunk_progress _ _)
        (qaBody_spec name ctx (envs 0)) h
      exact ⟨this.1, this.2.1⟩
    | fix =>
      have := runFix_spec envs fuel 0 name task ctx r h
      exact ⟨this.1, this.2.1⟩
    | test =>
      have h' : runTest name task ctx envs fuel = some r := h
      rw [runTest] at h'
      split at h'
      case _ hb =>
        simp only [Option.some.injEq] at h'
        subst h'
        exact ⟨rfl, testBody_ok_chunks_nonempty name ctx (envs 0) hb⟩
      case _ d t g hb =>
        split at h'
        case _ => cases h'
        case _ sc hsc =>
          simp only [Option.some.injEq] at h'
          subst h'
          refine ⟨(agentSelfCorrect_spec _ _ _ _ _ _ _ _ _ hsc).1, ?_⟩
          have hne := agentSelfCorrect_chunks_nonempty _ _ _ _ _ _ _ _ _ hsc
          intro hcon
          rcases List.append_eq_nil.mp hcon with ⟨_, h2⟩
          exact hne h2
      case _ pe hb =>
        split at h'
        · split at h'
          case _ => cases h'
          case _ sc hsc =>
            simp only [Option.some.injEq] at h'
            subst h'
            refine ⟨(agentSelfCorrect_spec _ _ _ _ _ _ _ _ _ hsc).1, by simp⟩
        · split at h'
          case _ => cases h'
          case _ sc hsc =>
            simp only [Option.some.injEq] at h'
            subst h'
            refine ⟨(agentSelfCorrect_spec _ _ _ _ _ _ _ _ _ hsc).1, by simp⟩
  · intro hf he
    have hf1 : 1 ≤ fuel := by omega
    cases k with
    | codegen => exact assembleRun_isSome name task ctx envs fuel _ _ _ hf1 he
    | planner => exact assembleRun_isSome name task ctx envs fuel _ _ _ hf1 he
    | doc => exact assembleRun_isSome name task ctx envs fuel _ _ _ hf1 he
    | qa => exact assembleRun_isSome name task ctx envs fuel _ _ _ hf1 he
    | fix =>
      show (runFix name task ctx envs 0 fuel).isSome = true
      cases fuel with
      | zero => omega
      | succ f =>
        have hf2 : 1 ≤ f := by omega
        have hcf : (envs 1).coordFail = none := envOkB_coordFail _ he
        rw [runFix]
        split
        · rfl
        case _ d t g _ =>
          obtain ⟨rr, hrr⟩ := Option.isSome_iff_exists.mp
            (runFix_isSome_of_envOk name (mkFixTask name task t d (ctxRepr ctx) g) ctx envs 1 f hf2 he)
          simp only [Nat.zero_add, hcf, hrr]
          obtain ⟨cs, esc, wr⟩ := rr
          cases esc <;> rfl
        case _ pe _ =>
          obtain ⟨rr, hrr⟩ := Option.isSome_iff_exists.mp
            (runFix_isSome_of_envOk name
              (mkFixTask name task "agent_execution_error" pe.msg (ctxRepr ctx) fixGuidance)
              ctx envs 1 f hf2 he)
          simp only [Nat.zero_add, hcf, hrr]
          obtain ⟨cs, esc, wr⟩ := rr
          cases esc <;> rfl
    | test =>
      show (runTest name task ctx envs fuel).isSome = true
      rw [runTest]
      split
      · rfl
      case _ d t g _ =>
        obtain ⟨sc, hsc⟩ := Option.isSome_iff_exists.mp
          (agentSelfCorrect_isSome name task ctx d t g envs fuel hf1 he)
        rw [hsc]
        rfl
      case _ pe _ =>
        split
        · obtain ⟨sc, hsc⟩ := Option.isSome_iff_exists.mp
            (agentSelfCorrect_isSome name task ctx pe.msg "validation_error" testValGuidance envs fuel hf1 he)
          rw [hsc]
          rfl
        · obtain ⟨sc, hsc⟩ := Option.isSome_iff_exists.mp
            (agentSelfCorrect_isSome name task ctx pe.msg "unhandled_exception" testUnhGuidance envs fuel hf1 he)
          rw [hsc]
          rfl

def c2Envs : Nat → AttemptEnv :=
  fun i => if i = 0 then ⟨.ok "P", .error ⟨"boom", false⟩, .ok [], .ok none, none⟩
           else ⟨.ok "P", .ok ["RECOVERED"], .ok [], .ok (some "fid9"), none⟩

theorem C2_witness :
    envOkB (c2Envs 1) = true ∧
    (runAgent .codegen "gen" "t" [] c2Envs 2).isSome = true ∧
    (∀ r, runAgent .codegen "gen" "t" [] c2Envs 2 = some r → r.esc = none ∧ r.chunks ≠ []) :=
  ⟨by decide,
   (C2_run_never_raises_nonempty .codegen "gen" "t" [] c2Envs 2).2 (by omega) (by decide),
   (C2_run_never_raises_nonempty .codegen "gen" "t" [] c2Envs 2).1⟩

theorem strAppend_empty (s : String) : s ++ "" = s := by
  cases s with
  | mk l => exact congrArg String.mk (List.append_nil l)

theorem joinAll_singleton (s : String) : joinAll [s] = s := by
  show s ++ joinAll [] = s
  exact strAppend_empty s

theorem codegenBody_written_nil (name : String) (e : AttemptEnv) :
    (codegenBody name e).written = [] := by
  obtain ⟨pr, lr, rr, per, cf⟩ := e
  unfold codegenBody
  cases pr with
  | error pe => rfl
  | ok p =>
    cases lr with
    | error pe => rfl
    | ok lcs =>
      by_cases hbl : (strIsBlank (joinAll lcs) || containsStr (joinAll lcs) "[ERROR]") = true
      · simp [hbl]
      · rw [Bool.not_eq_true] at hbl
        cases rr with
        | error pe => simp [hbl]
        | ok vs =>
          by_cases hvs : vs.isEmpty = true
          · simp [hbl, hvs]
          · rw [Bool.not_eq_true] at hvs
            simp [hbl, hvs]

theorem plannerBody_roundtrip (name : String) (ctx : SCtx) (e : AttemptEnv)
    (hok : (plannerBody name ctx e).outcome = BodyEnd.ok)
    (hnp : ∀ w ∈ (plannerBody name ctx e).written, isProgressChunk w = false) :
    ∀ w ∈ (plannerBody name ctx e).written, payloadOf (plannerBody name ctx e).chunks = w := by
  obtain ⟨pr, lr, rr, per, cf⟩ := e
  unfold plannerBody at hok hnp ⊢
  cases pr with
  | error pe => simp at hok
  | ok p =>
    cases lr with
    | error pe => simp at hok
    | ok lcs =>
      by_cases hbl : (strIsBlank (joinAll lcs) || containsStr (joinAll lcs) "[ERROR]") = true
      · simp [hbl] at hok
      · rw [Bool.not_eq_true] at hbl
        cases rr with
        | error pe => simp [hbl] at hok
        | ok vs =>
          by_cases hvs : vs.isEmpty = true
          · by_cases hpf : strFalsy (sctxGet ctx "parent_folder_id") = true
            · simp [hbl, hvs, hpf] at hok
            · rw [Bool.not_eq_true] at hpf
              cases per with
              | error pe => simp [hbl, hvs, hpf] at hok
              | ok fid =>
                cases fid with
                | none => simp [hbl, hvs, hpf] at hok
                | some f =>
                  simp only [hbl, hvs, hpf] at hnp ⊢
                  have hfull : isProgressChunk (joinAll lcs) = false := by
                    refine hnp (joinAll lcs) ?_
                    simp [hbl, hvs, hpf]
                  intro w hw
                  simp [hbl, hvs, hpf] at hw
                  subst hw
                  simp [payloadOf, List.filter, sChunk_progress, hfull, joinAll_singleton]
          · rw [Bool.not_eq_true] at hvs
            simp [hbl, hvs] at hok

theorem docBody_roundtrip (name : String) (ctx : SCtx) (e : AttemptEnv)
    (hok : (docBody name ctx e).outcome = BodyEnd.ok)
    (hnp : ∀ w ∈ (docBody name ctx e).written, isProgressChunk w = false) :
    ∀ w ∈ (docBody name ctx e).written, payloadOf (docBody name ctx e).chunks = w := by
  obtain ⟨pr, lr, rr, per, cf⟩ := e
  unfold docBody at hok hnp ⊢
  cases pr with
  | error pe => simp at hok
  | ok p =>
    cases lr with
    | error pe => simp at hok
    | ok lcs =>
      by_cases hbl : (strIsBlank (joinAll lcs) || containsStr (joinAll lcs) "[ERROR]") = true
      · simp [hbl] at hok
      · rw [Bool.not_eq_true] at hbl
        cases rr with
        | error pe => simp [hbl] at hok
        | ok vs =>
          by_cases hvs : vs.isEmpty = true
          · cases per with
            | error pe => simp [hbl, hvs] at hok
            | ok fid =>
              cases fid with
              | none => simp [hbl, hvs] at hok
              | some f =>
                simp only [hbl, hvs] at hnp ⊢
                have hfull : isProgressChunk (joinAll lcs) = false := by
                  refine hnp (joinAll lcs) ?_
                  simp [hbl, hvs]
                intro w hw
                simp [hbl, hvs] at hw
                subst hw
                simp [payloadOf, List.filter, sChunk_progress, hfull, joinAll_singleton]
          · rw [Bool.not_eq_true] at hvs
            simp [hbl, hvs] at hok

theorem fixBody_roundtrip (name : String) (ctx : SCtx) (e : AttemptEnv)
    (hok : (fixBody name ctx e).outcome = BodyEnd.ok)
    (hnp : ∀ w ∈ (fixBody name ctx e).written, isProgressChunk w = false) :
    ∀ w ∈ (fixBody name ctx e).written, payloadOf (fixBody name ctx e).chunks = w := by
  obtain ⟨pr, lr, rr, per, cf⟩ := e
  unfold fixBody at hok hnp ⊢
  cases pr with
  | error pe => simp at hok
  | ok p =>
    cases lr with
    | error pe => simp at hok
    | ok lcs =>
      by_cases hbl : (strIsBlank (joinAll lcs) || containsStr (joinAll lcs) "[ERROR]") = true
      · simp [hbl] at hok
      · rw [Bool.not_eq_true] at hbl
        cases rr with
        | error pe => simp [hbl] at hok
        | ok vs =>
          by_cases hvs : vs.isEmpty = true
          · cases per with
            | error pe => simp [hbl, hvs] at hok
            | ok fid =>
              cases fid with
              | none => simp [hbl, hvs] at hok
              | some f =>
                simp only [hbl, hvs] at hnp ⊢
                have hfull : isProgressChunk (joinAll lcs) = false := by
                  refine hnp (joinAll lcs) ?_
                  simp [hbl, hvs]
                intro w hw
                simp [hbl, hvs] at hw
                subst hw
                simp [payloadOf, List.filter, sChunk_progress, hfull, joinAll_singleton]
          · rw [Bool.not_eq_true] at hvs
            simp [hbl, hvs] at hok

theorem qaBody_roundtrip (name : String) (ctx : SCtx) (e : AttemptEnv)
    (hok : (qaBody name ctx e).outcome = BodyEnd.ok)
    (hnp : ∀ w ∈ (qaBody name ctx e).written, isProgressChunk w = false) :
    ∀ w ∈ (qaBody name ctx e).written, payloadOf (qaBody name ctx e).chunks = w := by
  obtain ⟨pr, lr, rr, per, cf⟩ := e
  unfold qaBody at hok hnp ⊢
  cases pr with
  | error pe => simp at hok
  | ok p =>
    cases lr with
    | error pe => simp at hok
    | ok lcs =>
      by_cases hbl : (strIsBlank (joinAll lcs) || containsStr (joinAll lcs) "[ERROR]") = true
      · simp [hbl] at hok
      · rw [Bool.not_eq_true] at hbl
        cases rr with
        | error pe => simp [hbl] at hok
        | ok vs =>
          by_cases hvs : vs.isEmpty = true
          · by_cases hop : (opTypeOf ctx "answer_with_context" != "answer_without_context") = true
            · cases per with
              | error pe => simp [hbl, hvs, hop] at hok
              | ok fid =>
                cases fid with
                | none => simp [hbl, hvs, hop] at hok
                | some f =>
                  simp only [hbl, hvs, hop] at hnp ⊢
                  have hfull : isProgressChunk (joinAll lcs) = false := by
                    refine hnp (joinAll lcs) ?_
                    simp [hbl, hvs, hop]
                  intro w hw
                  simp [hbl, hvs, hop] at hw
                  subst hw
                  simp [payloadOf, List.filter, sChunk_progress, hfull, joinAll_singleton]
            · rw [Bool.not_eq_true] at hop
              simp only [hbl, hvs, hop] at hnp ⊢
              intro w hw
              simp [hbl, hvs, hop] at hw
          · rw [Bool.not_eq_true] at hvs
            simp [hbl, hvs] at hok

theorem assembleRun_ok (name task : String) (ctx : SCtx) (envs : Nat → AttemptEnv)
    (fuel : Nat) (startC guidance : String) (b : BodyOut)
    (hok : b.outcome = BodyEnd.ok) :
    assembleRun name task ctx envs fuel startC guidance b =
      some ⟨startC :: b.chunks, none, b.written⟩ := by
  rw [assembleRun, hok]

theorem payloadOf_cons_progress (c : String) (cs : List String)
    (h : isProgressChunk c = true) : payloadOf (c :: cs) = payloadOf cs := by
  simp [payloadOf, List.filter, h]

/-- Claim C4, amended: a chunk is classified as progress exactly when it
carries the literal `STREAM_CHUNK:` prefix; and for every agent except the
test agent, when attempt 0 of the lifecycle succeeds, the in-order
concatenation of the payload chunks of the stream equals each (hence the unique)
artifact content written to storage — provided the artifact itself does not
begin with `STREAM_CHUNK:` (such content would be misclassified as
progress).  (As stated over every agent the claim is false: on success the
test agent emits a further unprefixed `[SUCCESS] Output saved ...` chunk
after the artifact — see the counterexample.) -/
theorem C4_amended_payload_roundtrip
    (k : AgentKind) (name task : String) (ctx : SCtx) (envs : Nat → AttemptEnv)
    (fuel : Nat) (r : RunOut)
    (hk : k ≠ AgentKind.test)
    (hok : (bodyOf k name ctx (envs 0)).outcome = BodyEnd.ok)
    (h : runAgent k name task ctx envs fuel = some r)
    (hnp : ∀ w ∈ r.written, isProgressChunk w = false) :
    (∀ s, isProgressChunk s = strStarts s "STREAM_CHUNK:") ∧
    ∀ w ∈ r.written, payloadOf r.chunks = w := by
  refine ⟨fun s => rfl, ?_⟩
  cases k with
  | codegen =>
    have h' : assembleRun name task ctx envs fuel
        (sChunk name ("[" ++ name ++ "] Starting code generation task: " ++ task))
        codegenGuidance (codegenBody name (envs 0)) = some r := h
    have hok' : (codegenBody name (envs 0)).outcome = BodyEnd.ok := hok
    rw [assembleRun_ok _ _ _ _ _ _ _ _ hok'] at h'
    simp only [Option.some.injEq] at h'
    subst h'
    intro w hw
    rw [codegenBody_written_nil] at hw
    cases hw
  | planner =>
    have h' : assembleRun name task ctx envs fuel
        (sChunk name ("[" ++ name ++ "] Starting planning task: " ++ task))
        plannerGuidance (plannerBody name ctx (envs 0)) = some r := h
    have hok' : (plannerBody name ctx (envs 0)).outcome = BodyEnd.ok := hok
    rw [assembleRun_ok _ _ _ _ _ _ _ _ hok'] at h'
    simp only [Option.some.injEq] at h'
    subst h'
    intro w hw
    rw [payloadOf_cons_progress _ _ (sChunk_progress _ _)]
    exact plannerBody_roundtrip name ctx (envs 0) hok' hnp w hw
  | doc =>
    have h' : assembleRun name task ctx envs fuel
        (sChunk name ("[" ++ name ++ "] Starting documentation task: " ++ task))
        docGuidance (docBody name ctx (envs 0)) = some r := h
    have hok' : (docBody name ctx (envs 0)).outcome = BodyEnd.ok := hok
    rw [assembleRun_ok _ _ _ _ _ _ _ _ hok'] at h'
    simp only [Option.some.injEq] at h'
    subst h'
    intro w hw
    rw [payloadOf_cons_progress _ _ (sChunk_progress _ _)]
    exact docBody_roundtrip name ctx (envs 0) hok' hnp w hw
  | qa =>
    have h' : assembleRun name task ctx envs fuel
        (sChunk name ("[" ++ name ++ "] Starting QA task: " ++ task))
        qaGuidance (qaBody name ctx (envs 0)) = some r := h
    have hok' : (qaBody name ctx (envs 0)).outcome = BodyEnd.ok := hok
    rw [assembleRun_ok _ _ _ _ _ _ _ _ hok'] at h'
    simp only [Option.some.injEq] at h'
    subst h'
    intro w hw
    rw [payloadOf_cons_progress _ _ (sChunk_progress _ _)]
    exact qaBody_roundtrip name ctx (envs 0) hok' hnp w hw
  | fix =>
    have h' : runFix name task ctx envs 0 fuel = some r := h
    have hok' : (fixBody name ctx (envs 0)).outcome = BodyEnd.ok := hok
    cases fuel with
    | zero => cases h'
    | succ f =>
      rw [runFix] at h'
      split at h'
      case _ hb =>
        simp only [Option.some.injEq] at h'
        subst h'
        intro w hw
        rw [payloadOf_cons_progress _ _ (sChunk_progress _ _)]
        exact fixBody_roundtrip name ctx (envs 0) hok' hnp w hw
      case _ d t g hb =>
        rw [hok'] at hb
        cases hb
      case _ pe hb =>
        rw [hok'] at hb
        cases hb
  | test => exact absurd rfl hk

def c4Envs : Nat → AttemptEnv := fun _ => ⟨.ok "P", .ok ["CODE"], .ok [], .ok (some "fid42"), none⟩

def c4Run : RunOut := (runAgent .test "test" "make tests" [] c4Envs 1).getD default

/-- Claim C4 counterexample: on a *successful* test-agent run the artifact
written to storage is `"CODE"` but the concatenation of the emitted payload
chunks is `"CODE\n[SUCCESS] Output saved to GDrive file ID: fid42"` — the
test agent appends an unprefixed success-status chunk after the artifact, so
the payload concatenation does not reconstruct the artifact. -/
theorem C4_counterexample_test_agent_roundtrip :
    runAgent .test "test" "make tests" [] c4Envs 1 = some c4Run ∧
    c4Run.written = ["CODE"] ∧
    payloadOf c4Run.chunks = "CODE\n[SUCCESS] Output saved to GDrive file ID: fid42" ∧
    payloadOf c4Run.chunks ≠ "CODE" := by
  refine ⟨rfl, rfl, by decide, by decide⟩

def c4wEnvs : Nat → AttemptEnv := fun _ => ⟨.ok "P", .ok ["THE PLAN"], .ok [], .ok (some "fidP"), none⟩

theorem C4_witness :
    runAgent .planner "planner" "t" [("parent_folder_id", "pf")] c4wEnvs 1 =
      some ⟨[sChunk "planner" "[planner] Starting planning task: t",
             sChunk "planner" "[planner] Constructing prompt...",
             sChunk "planner" "[planner] Generating plan...",
             sChunk "planner" "[planner] Validating plan...",
             sChunk "planner" "[planner] Validation passed. Saving plan to Google Drive...",
             "THE PLAN",
             sChunk "planner" "[SUCCESS] [planner] Plan saved to GDrive file ID: fidP"],
            none, ["THE PLAN"]⟩ ∧
    (∀ w ∈ (⟨[sChunk "planner" "[planner] Starting planning task: t",
             sChunk "planner" "[planner] Constructing prompt...",
             sChunk "planner" "[planner] Generating plan...",
             sChunk "planner" "[planner] Validating plan...",
             sChunk "planner" "[planner] Validation passed. Saving plan to Google Drive...",
             "THE PLAN",
             sChunk "planner" "[SUCCESS] [planner] Plan saved to GDrive file ID: fidP"],
            none, ["THE PLAN"]⟩ : RunOut).written,
      payloadOf (⟨[sChunk "planner" "[planner] Starting planning task: t",
             sChunk "planner" "[planner] Constructing prompt...",
             sChunk "planner" "[planner] Generating plan...",
             sChunk "planner" "[planner] Validating plan...",
             sChunk "planner" "[planner] Validation passed. Saving plan to Google Drive...",
             "THE PLAN",
             sChunk "planner" "[SUCCESS] [planner] Plan saved to GDrive file ID: fidP"],
            none, ["THE PLAN"]⟩ : RunOut).chunks = w) := by
  refine ⟨by decide, ?_⟩
  exact (C4_amended_payload_roundtrip .planner "planner" "t" [("parent_folder_id", "pf")]
    c4wEnvs 1 _ (by intro hc; cases hc) (by decide) (by decide) (by decide)).2
